import Mathlib

/-!
Shallow embedding of the protocol-emulation client of `bilibili-monitor`
(`src/bilibili_monitor/bilibili.py`) together with proofs about its
specification.  Python dictionaries are embedded as ordered association
lists (`PDict`), machine integers as `Nat`/`Int` with explicit `% 2^64`,
fallible code as `Except`, and external effects (network responses, the
random generator, the clock) as explicit parameters.
-/

namespace Bilibili

/-- Ordered string-to-string mapping, mirroring a Python `dict` (insertion
order preserved, keys unique). -/
abbrev PDict := List (String × String)

/-- Python `d[k] = v`: replace the value in place when the key is present,
append at the end otherwise. -/
def setKey (d : PDict) (k v : String) : PDict :=
  if d.any (fun p => p.1 = k) then
    d.map (fun p => if p.1 = k then (k, v) else p)
  else d ++ [(k, v)]

/-- Python `d.setdefault(k, v)`: insert only when the key is absent. -/
def setDefault (d : PDict) (k v : String) : PDict :=
  if d.any (fun p => p.1 = k) then d else d ++ [(k, v)]

/-- Python `d.get(k)`: the value stored under `k`, if any. -/
def getVal (d : PDict) (k : String) : Option String :=
  (d.find? (fun p => p.1 = k)).map (fun p => p.2)

/-- Keys of a `PDict`, in insertion order. -/
def keysOf (d : PDict) : List String := d.map Prod.fst

/-- Lexicographic (code-point) order on character lists — Python's string
order. -/
def charListLe : List Char → List Char → Bool
  | [], _ => true
  | _ :: _, [] => false
  | a :: as, b :: bs => if a = b then charListLe as bs else decide (a < b)

/-- Python `s1 <= s2` on strings: lexicographic by code point. -/
def strLe (a b : String) : Bool := charListLe a.data b.data

/-! ## The 128-bit seeded hash (`_murmur3_x64_128`, bilibili.py lines 190-271) -/

/-- `_rotate_left` (bilibili.py line 190): 64-bit rotate-left. -/
def _rotate_left (value bits : Nat) : Nat :=
  ((value <<< bits) &&& ((1 <<< 64) - 1)) ||| (value >>> (64 - bits))

/-- `_fmix64` (bilibili.py line 265): the murmur3 finalization mix. -/
def _fmix64 (value : Nat) : Nat :=
  let v1 := value ^^^ (value >>> 33)
  let v2 := (v1 * 0xFF51AFD7ED558CCD) % (1 <<< 64)
  let v3 := v2 ^^^ (v2 >>> 33)
  let v4 := (v3 * 0xC4CEB9FE1A85EC53) % (1 <<< 64)
  v4 ^^^ (v4 >>> 33)

/-- `struct.unpack("<q", ...)`: a signed little-endian 64-bit read of eight
bytes (`b.getD i 0` is byte `i`). -/
def unpackInt64LE (b : List Nat) : Int :=
  let u : Nat :=
    b.getD 0 0 + (b.getD 1 0) <<< 8 + (b.getD 2 0) <<< 16 + (b.getD 3 0) <<< 24 +
    (b.getD 4 0) <<< 32 + (b.getD 5 0) <<< 40 + (b.getD 6 0) <<< 48 + (b.getD 7 0) <<< 56
  if u < 2 ^ 63 then (u : Int) else (u : Int) - 2 ^ 64

/-- The final (`len(chunk) == 0`) branch of the `_murmur3_x64_128` loop:
XOR in the processed length, cross-mix, apply `_fmix64` to both lanes,
cross-mix again and pack the two 64-bit lanes into one 128-bit value. -/
def _murmur3_finalize (h1 h2 processed : Nat) : Nat :=
  let modulus := 1 <<< 64
  let h1a := h1 ^^^ processed
  let h2a := h2 ^^^ processed
  let h1b := (h1a + h2a) % modulus
  let h2b := (h2a + h1b) % modulus
  let h1c := _fmix64 h1b
  let h2c := _fmix64 h2b
  let h1d := (h1c + h2c) % modulus
  let h2d := (h2c + h1d) % modulus
  (h2d <<< 64) ||| h1d

/-- The tail (`0 < len(chunk) < 16`) branch of the `_murmur3_x64_128` loop:
fold the final partial block byte-by-byte into the two lanes.  `chunk` is
the partial block; indexing past its end reads the zero padding. -/
def _murmur3_tail (chunk : List Nat) (h1 h2 : Nat) : Nat × Nat :=
  let modulus := 1 <<< 64
  let c1 := 0x87C37B91114253D5
  let c2 := 0x4CF5AD432745937F
  let len := chunk.length
  let k2 : Nat := 0
  let k2 := if 15 ≤ len then k2 ^^^ ((chunk.getD 14 0) <<< 48) else k2
  let k2 := if 14 ≤ len then k2 ^^^ ((chunk.getD 13 0) <<< 40) else k2
  let k2 := if 13 ≤ len then k2 ^^^ ((chunk.getD 12 0) <<< 32) else k2
  let k2 := if 12 ≤ len then k2 ^^^ ((chunk.getD 11 0) <<< 24) else k2
  let k2 := if 11 ≤ len then k2 ^^^ ((chunk.getD 10 0) <<< 16) else k2
  let k2 := if 10 ≤ len then k2 ^^^ ((chunk.getD 9 0) <<< 8) else k2
  let h2 :=
    if 9 ≤ len then
      h2 ^^^ (_rotate_left (((k2 ^^^ chunk.getD 8 0) * c2) % modulus) 33 * c1 % modulus)
    else h2
  let k1 : Nat := 0
  let k1 := if 8 ≤ len then k1 ^^^ ((chunk.getD 7 0) <<< 56) else k1
  let k1 := if 7 ≤ len then k1 ^^^ ((chunk.getD 6 0) <<< 48) else k1
  let k1 := if 6 ≤ len then k1 ^^^ ((chunk.getD 5 0) <<< 40) else k1
  let k1 := if 5 ≤ len then k1 ^^^ ((chunk.getD 4 0) <<< 32) else k1
  let k1 := if 4 ≤ len then k1 ^^^ ((chunk.getD 3 0) <<< 24) else k1
  let k1 := if 3 ≤ len then k1 ^^^ ((chunk.getD 2 0) <<< 16) else k1
  let k1 := if 2 ≤ len then k1 ^^^ ((chunk.getD 1 0) <<< 8) else k1
  let h1 :=
    if 1 ≤ len then
      h1 ^^^ (_rotate_left (((k1 ^^^ chunk.getD 0 0) * c1) % modulus) 31 * c2 % modulus)
    else h1
  (h1, h2)

/-- One full 16-byte chunk step of the `_murmur3_x64_128` loop
(the `len(chunk) == 16` branch). -/
def _murmur3_block (chunk : List Nat) (h1 h2 : Nat) : Nat × Nat :=
  let modulus : Nat := 1 <<< 64
  let c1 : Nat := 0x87C37B91114253D5
  let c2 : Nat := 0x4CF5AD432745937F
  let c3 : Nat := 0x52DCE729
  let c4 : Nat := 0x38495AB5
  let k1 := unpackInt64LE (chunk.take 8)
  let k2 := unpackInt64LE (chunk.drop 8)
  let h1a := h1 ^^^ (_rotate_left ((k1 * (c1 : Int)) % ((modulus : Nat) : Int)).toNat 31 * c2 % modulus)
  let h1b := ((_rotate_left h1a 27 + h2) * 5 + c3) % modulus
  let h2a := h2 ^^^ (_rotate_left ((k2 * (c2 : Int)) % ((modulus : Nat) : Int)).toNat 33 * c1 % modulus)
  let h2b := ((_rotate_left h2a 31 + h1b) * 5 + c4) % modulus
  (h1b, h2b)

/-- The `while True` loop of `_murmur3_x64_128`: read 16-byte chunks from
the stream, mixing full chunks into the lanes; finish on a partial or empty
chunk (a chunk of 16 is exactly a 16-cons pattern on the byte list). -/
def _murmur3_loop : List Nat → Nat → Nat → Nat → Nat
  | b0 :: b1 :: b2 :: b3 :: b4 :: b5 :: b6 :: b7 ::
    b8 :: b9 :: b10 :: b11 :: b12 :: b13 :: b14 :: b15 :: rest, h1, h2, processed =>
    let chunk := [b0, b1, b2, b3, b4, b5, b6, b7, b8, b9, b10, b11, b12, b13, b14, b15]
    let s := _murmur3_block chunk h1 h2
    _murmur3_loop rest s.1 s.2 (processed + 16)
  | data, h1, h2, processed =>
    if data.length = 0 then
      _murmur3_finalize h1 h2 processed
    else
      let t := _murmur3_tail data h1 h2
      _murmur3_finalize t.1 t.2 (processed + data.length)

/-- `_murmur3_x64_128` (bilibili.py line 194): the 128-bit seeded hash over
a byte stream. -/
def _murmur3_x64_128 (data : List Nat) (seed : Nat) : Nat :=
  _murmur3_loop data seed seed 0

/-- `_gen_buvid_fp` (bilibili.py line 287): render the 128-bit digest of the
payload as low-64-bits hex followed by high-64-bits hex. -/
def _gen_buvid_fp (payload : List Nat) (seed : Nat) : String :=
  let digest := _murmur3_x64_128 payload seed
  let low := Nat.toDigits 16 (digest &&& ((1 <<< 64) - 1))
  let high := Nat.toDigits 16 (digest >>> 64)
  String.mk low ++ String.mk high

/-! ## WBI signing-key derivation (`_extract_wbi_key`, `_compute_wbi_mixin_key`) -/

/-- `_WBI_MIXIN_KEY_ORDER` (bilibili.py lines 119-184): the fixed public
64-element permutation table. -/
def _WBI_MIXIN_KEY_ORDER : List Nat :=
  [46, 47, 18, 2, 53, 8, 23, 13, 41, 3, 10, 34, 6, 29, 58, 45,
   4, 14, 57, 12, 37, 27, 43, 5, 49, 26, 38, 54, 63, 9, 7, 61,
   21, 48, 32, 16, 50, 28, 15, 39, 56, 62, 35, 1, 60, 59, 24, 40,
   44, 30, 52, 0, 33, 51, 22, 31, 19, 11, 36, 55, 25, 17, 42, 20]

/-- `_extract_wbi_key` (bilibili.py line 440):
`url.rsplit("/", 1)[-1].split(".")[0]` — the filename stem of an asset URL. -/
def _extract_wbi_key (url : String) : String :=
  String.mk (((url.data.reverse.takeWhile (fun c => c ≠ '/')).reverse).takeWhile (fun c => c ≠ '.'))

/-- The reordering in `_compute_wbi_mixin_key` (bilibili.py line 455):
`"".join(raw_key[idx] for idx in _WBI_MIXIN_KEY_ORDER)[:32]`.  `none`
models the `IndexError` Python raises when an index is out of range. -/
def mixinFromRawKey (raw : List Char) : Option (List Char) :=
  (_WBI_MIXIN_KEY_ORDER.mapM (fun idx => raw.get? idx)).map (fun cs => cs.take 32)

/-- The `wbi_img` object of the navigation response (`data.wbi_img`);
`none` models an absent field. -/
structure WbiImg where
  img_url : Option String
  sub_url : Option String

/-- Errors `_compute_wbi_mixin_key` can raise. -/
inductive WbiErr where
  | missingUrl
  | indexError
deriving DecidableEq, Repr

/-- Python truthiness of an optional string (`None` and `""` are falsy). -/
def truthyOptStr (o : Option String) : Bool :=
  match o with
  | some s => s ≠ ""
  | none => false

/-- `_compute_wbi_mixin_key` (bilibili.py lines 444-455) applied to an
already-parsed navigation response: a missing (or empty, hence falsy)
`img_url`/`sub_url` is a hard `RuntimeError`; otherwise concatenate the two
filename stems and apply the fixed permutation, truncating to 32 chars. -/
def _compute_wbi_mixin_key (wbi_img : WbiImg) : Except WbiErr String :=
  if truthyOptStr wbi_img.img_url ∧ truthyOptStr wbi_img.sub_url then
    let img := wbi_img.img_url.getD ""
    let sub := wbi_img.sub_url.getD ""
    let raw_key := _extract_wbi_key img ++ _extract_wbi_key sub
    match mixinFromRawKey raw_key.data with
    | some cs => .ok (String.mk cs)
    | none => .error .indexError
  else .error .missingUrl

/-! ## Parameter signing (`_inject_wbi_mouse`, `_sign_wbi_params`) -/

/-- The character filter of `_sign_wbi_params` (bilibili.py line 478):
`"".join(ch for ch in str(value) if ch not in "!'()*")`. -/
def stripForbidden (s : String) : String :=
  String.mk (s.data.filter (fun ch => ¬ ("!'()*".data.contains ch)))

/-- UTF-8 encoding of one character (byte values as `Nat`). -/
def utf8Bytes (c : Char) : List Nat :=
  let n := c.toNat
  if n < 0x80 then [n]
  else if n < 0x800 then
    [0xC0 ||| (n >>> 6), 0x80 ||| (n &&& 0x3F)]
  else if n < 0x10000 then
    [0xE0 ||| (n >>> 12), 0x80 ||| ((n >>> 6) &&& 0x3F), 0x80 ||| (n &&& 0x3F)]
  else
    [0xF0 ||| (n >>> 18), 0x80 ||| ((n >>> 12) &&& 0x3F),
     0x80 ||| ((n >>> 6) &&& 0x3F), 0x80 ||| (n &&& 0x3F)]

/-- Byte-level encoding of Python `urllib.parse.quote_plus` (the default
`quote_via` of `urlencode` with `safe=''`): alphanumerics and `_.-~` kept,
space becomes `+`, every other byte percent-encoded in uppercase hex. -/
def quotePlusByte (n : Nat) : String :=
  if (48 ≤ n ∧ n ≤ 57) ∨ (65 ≤ n ∧ n ≤ 90) ∨ (97 ≤ n ∧ n ≤ 122) ∨
      n = 95 ∨ n = 46 ∨ n = 45 ∨ n = 126 then
    String.mk [Char.ofNat n]
  else if n = 32 then "+"
  else
    let hexDigit : Nat → Char := fun d => "0123456789ABCDEF".data.getD d '0'
    String.mk ['%', hexDigit (n / 16), hexDigit (n % 16)]

/-- Python `urllib.parse.quote_plus` over the UTF-8 bytes of a string. -/
def quotePlus (s : String) : String :=
  String.join (((s.data.map utf8Bytes).flatten).map quotePlusByte)

/-- Python `urllib.parse.urlencode`: `k=v` pairs (both `quote_plus`-encoded)
joined by `&`, in the mapping's order. -/
def urlencode (d : PDict) : String :=
  String.intercalate "&" (d.map (fun p => quotePlus p.1 ++ "=" ++ quotePlus p.2))

/-- `_inject_wbi_mouse` (bilibili.py lines 467-472).  The two `random.sample`
draws are passed in explicitly (`dmImgStr`, `dmCoverImgStr`): the Python
code draws them from the global random generator on every call. -/
def _inject_wbi_mouse (dmImgStr dmCoverImgStr : String) (params : PDict) : PDict :=
  let p1 := setDefault params "dm_img_list" "[]"
  let p2 := setDefault p1 "dm_img_str" dmImgStr
  let p3 := setDefault p2 "dm_cover_img_str" dmCoverImgStr
  setDefault p3 "dm_img_inter" "\x7b\"ds\":[],\"wh\":[0,0,0],\"of\":[0,0,0]\x7d"

/-- `_sign_wbi_params` (bilibili.py lines 475-489).  Explicit inputs stand
for the implicit effects of the Python code: `md5hex` for
`hashlib.md5(...).hexdigest()`, `mixin_key` for `_get_wbi_mixin_key()`,
`now` for `int(time.time())`, and `dmImgStr`/`dmCoverImgStr` for the two
`random.sample` draws of `_inject_wbi_mouse`.  Input values are
`Option String` because entries with value `None` are dropped. -/
def _sign_wbi_params (md5hex : String → String) (mixin_key : String) (now : Nat)
    (dmImgStr dmCoverImgStr : String) (include_mouse : Bool)
    (params : List (String × Option String)) : PDict :=
  let filtered : PDict :=
    params.filterMap (fun p => p.2.map (fun v => (p.1, stripForbidden v)))
  let withMouse :=
    if include_mouse then _inject_wbi_mouse dmImgStr dmCoverImgStr filtered else filtered
  let withLoc := setDefault withMouse "web_location" "1550101"
  let withWts := setKey withLoc "wts" (toString now)
  let ordered := withWts.insertionSort (fun a b => strLe a.1 b.1 = true)
  let query := urlencode ordered
  setKey ordered "w_rid" (md5hex (query ++ mixin_key))

/-! ## API envelope checking and the `-799` retry loop -/

/-- Does the character list `s` start with `pat`? -/
def startsWithChars : List Char → List Char → Bool
  | _, [] => true
  | [], _ :: _ => false
  | a :: as, b :: bs => decide (a = b) && startsWithChars as bs

/-- Does the character list `s` contain `pat` as a contiguous substring? -/
def containsSubChars : List Char → List Char → Bool
  | [], pat => startsWithChars [] pat
  | a :: rest, pat => startsWithChars (a :: rest) pat || containsSubChars rest pat

/-- Python `pat in s` on strings (substring containment). -/
def strContainsSub (s pat : String) : Bool := containsSubChars s.data pat.data

/-- The parsed JSON envelope of an API response: top-level `code`,
`message` and `msg` fields (`none` models an absent field). -/
structure ApiEnvelope where
  code : Option Int
  message : Option String
  msg : Option String
deriving DecidableEq, Repr

/-- Truthy coalescing `a or b` on optional strings (`""` is falsy). -/
def pyOrOpt (a b : Option String) : Option String :=
  match a with
  | some s => if s ≠ "" then some s else b
  | none => b

/-- Truthy coalescing `a or d` with a string default. -/
def pyOrStr (a : Option String) (d : String) : String :=
  match a with
  | some s => if s ≠ "" then s else d
  | none => d

/-- `_raise_for_code` (bilibili.py lines 521-527): a non-zero, non-absent
`code` raises `RuntimeError(f"Bilibili API error {code}: {message}")`
where `message` is `payload.get("message") or payload.get("msg") or
"unknown error"`.  The `Except.error` value is the rendered exception
string (what Python's `str(exc)` yields). -/
def _raise_for_code (e : ApiEnvelope) : Except String Unit :=
  match e.code with
  | none => .ok ()
  | some c =>
    if c = 0 then .ok ()
    else
      .error ("Bilibili API error " ++ toString c ++ ": " ++
        pyOrStr (pyOrOpt e.message e.msg) "unknown error")

deriving instance DecidableEq for Except

/-- Outcome of a fetch attempt loop: the final result, the number of
forced signing-key refreshes, and the number of 0.5-second sleeps. -/
structure FetchOutcome where
  result : Except String ApiEnvelope
  refreshes : Nat
  sleeps : Nat
deriving DecidableEq, Repr

/-- The `for attempt in range(2)` retry loop shared verbatim by
`fetch_videos` (bilibili.py lines 646-660) and `fetch_articles` (lines
704-718): check the envelope; on a `RuntimeError` whose text contains
`"-799"` at attempt 0, force-refresh the WBI mixin key, sleep 0.5 s and
retry once; any error at attempt 1 (or a non-`-799` error at attempt 0)
propagates.  `resp n` is the parsed envelope the server returns for
attempt `n`. -/
def fetchSignedWithRetry (resp : Nat → ApiEnvelope) : FetchOutcome :=
  match _raise_for_code (resp 0) with
  | .ok _ => ⟨.ok (resp 0), 0, 0⟩
  | .error e =>
    if strContainsSub e "-799" then
      match _raise_for_code (resp 1) with
      | .ok _ => ⟨.ok (resp 1), 1, 1⟩
      | .error e2 => ⟨.error e2, 1, 1⟩
    else ⟨.error e, 0, 0⟩

/-- The envelope check of `fetch_dynamic` (bilibili.py lines 551-554):
one request, one `_raise_for_code`, no retry loop — only `resp 0` is ever
consumed. -/
def fetchDynamicCheck (resp : Nat → ApiEnvelope) : FetchOutcome :=
  match _raise_for_code (resp 0) with
  | .ok _ => ⟨.ok (resp 0), 0, 0⟩
  | .error e => ⟨.error e, 0, 0⟩

/-! ## Ticket caching (`_ensure_bili_ticket`, bilibili.py lines 400-432) -/

/-- The module-level ticket cache (`_BILI_TICKET`,
`_BILI_TICKET_EXPIRES_AT`). -/
structure TicketState where
  ticket : Option String
  expiresAt : Int
deriving DecidableEq, Repr

/-- `_ensure_bili_ticket`.  `now` is the first `int(time.time())` read
(guard), `ts` the second (issuance timestamp); `net` is the outcome of the
`GenWebTicket` POST — `.error` for any raised exception, `.ok t` for a
parsed response whose `data.ticket` is `t` (`none` when absent).  Returns
the new cache, the new cookie jar and the number of network calls
performed (the whole request block is wrapped in `try/except`, so the
function always returns normally). -/
def _ensure_bili_ticket (st : TicketState) (jar : PDict) (now ts : Int)
    (net : Except String (Option String)) : TicketState × PDict × Nat :=
  let cachedValid :=
    match st.ticket with
    | some t => t ≠ "" && decide (now < st.expiresAt - 60)
    | none => false
  if cachedValid then (st, jar, 0)
  else
    match net with
    | .ok (some t) =>
      if t ≠ "" then
        let expiry := ts + 3 * 24 * 60 * 60
        (⟨some t, expiry⟩,
         setKey (setKey jar "bili_ticket" t) "bili_ticket_expires" (toString expiry), 1)
      else (st, jar, 1)
    | .ok none => (st, jar, 1)
    | .error _ => (st, jar, 1)

/-! ## Device-identity bootstrap (`_ensure_buvid`, bilibili.py lines 372-397) -/

/-- The module-level device-identity cache (`_BUVID_FETCHED`,
`_BUVID_PAIR`). -/
structure BuvidState where
  fetched : Bool
  pair : Option (String × String)
deriving DecidableEq, Repr

/-- Result of `_ensure_buvid`: new cache, new cookie jar, number of
warnings logged. -/
structure BuvidResult where
  state : BuvidState
  jar : PDict
  warnings : Nat
deriving DecidableEq, Repr

/-- `_ensure_buvid`.  `outcome` is the combined result of
`_fetch_buvid_pair` + `_activate_buvid` (the whole `try` block):
`.ok (b3, b4, fp)` on success (activation also stores the `buvid_fp`
cookie `fp`), `.error` for any raised exception.  `rand3`/`rand4`/`randFp`
are the random hex strings drawn for the local fallback identifiers.
The `except Exception` handler means the function always returns
normally, logging one warning on the fallback path. -/
def _ensure_buvid (st : BuvidState) (jar : PDict)
    (outcome : Except String (String × String × String))
    (rand3 rand4 randFp : String) : BuvidResult :=
  if st.fetched then ⟨st, jar, 0⟩
  else
    let existing3 := getVal jar "buvid3"
    let existing4 := getVal jar "buvid4"
    match pyOrOpt existing3 none, pyOrOpt existing4 none with
    | some e3, some e4 =>
      let jar1 := setKey (setKey jar "buvid3" e3) "buvid4" e4
      let jar2 := setKey jar1 "opus-goback" "1"
      ⟨⟨true, some (e3, e4)⟩, jar2, 0⟩
    | _, _ =>
      match outcome with
      | .ok (b3, b4, fp) =>
        let jar1 := setKey jar "buvid_fp" fp
        let jar2 := setKey (setKey jar1 "buvid3" b3) "buvid4" b4
        let jar3 := setKey jar2 "opus-goback" "1"
        ⟨⟨true, some (b3, b4)⟩, jar3, 0⟩
      | .error _ =>
        let b3 := rand3 ++ "infoc"
        let b4 := rand4 ++ "infoc"
        let jar1 := setKey jar "buvid_fp" randFp
        let jar2 := setKey (setKey jar1 "buvid3" b3) "buvid4" b4
        let jar3 := setKey jar2 "opus-goback" "1"
        ⟨⟨true, some (b3, b4)⟩, jar3, 1⟩

/-! ## `_safe_datetime` (bilibili.py lines 530-536) -/

/-- Python exception classes relevant to `_safe_datetime`. -/
inductive PyExc where
  | typeError
  | valueError
  | osError
  | overflowError
deriving DecidableEq, Repr

/-- JSON scalar reaching `_safe_datetime` (`None`, a number, or a
string). -/
inductive JVal where
  | jnull
  | jint (n : Int)
  | jstr (s : String)
deriving DecidableEq, Repr

/-- Python truthiness of a JSON scalar (`not ts`). -/
def pyFalsy : JVal → Bool
  | .jnull => true
  | .jint n => n = 0
  | .jstr s => s = ""

/-- Parse an unsigned run of decimal digits (helper for `parseIntStr`). -/
def parseDigits (ds : List Char) : Option Nat :=
  if ds ≠ [] ∧ ds.all (fun c => c.isDigit) then
    some (ds.foldl (fun acc c => acc * 10 + (c.toNat - 48)) 0)
  else none

/-- Parse a decimal integer with an optional sign (Python `int(str)`;
whitespace/underscore forms are not modelled). -/
def parseIntStr (s : String) : Except PyExc Int :=
  match s.data with
  | '-' :: rest =>
    match parseDigits rest with
    | some n => .ok (-(n : Int))
    | none => .error .valueError
  | '+' :: rest =>
    match parseDigits rest with
    | some n => .ok (n : Int)
    | none => .error .valueError
  | ds =>
    match parseDigits ds with
    | some n => .ok (n : Int)
    | none => .error .valueError

/-- Python `int(ts)` on a JSON scalar: ints pass through, strings are
parsed (`ValueError` on failure), `None` raises `TypeError`. -/
def pyInt : JVal → Except PyExc Int
  | .jnull => .error .typeError
  | .jint n => .ok n
  | .jstr s => parseIntStr s

/-- A timezone-aware datetime, represented by its epoch seconds and its
fixed UTC offset in seconds. -/
structure PyDatetime where
  epochSeconds : Int
  utcOffsetSeconds : Int
deriving DecidableEq, Repr

/-- Seconds east of UTC for `Asia/Shanghai` (UTC+8). -/
def SHANGHAI_OFFSET : Int := 8 * 3600

/-- Epoch seconds of `datetime.min` (0001-01-01 00:00:00). -/
def DATETIME_MIN_EPOCH : Int := -62135596800

/-- Epoch seconds of `datetime.max` (9999-12-31 23:59:59). -/
def DATETIME_MAX_EPOCH : Int := 253402300799

/-- Modelled semantics of CPython `datetime.fromtimestamp(t, tz)` for a
fixed-offset zone on a 64-bit platform (behaviour confirmed empirically):
a timestamp outside the signed 64-bit `time_t` range raises
`OverflowError` ("timestamp out of range for platform time_t"); a
timestamp whose UTC datetime falls outside year 1..9999 raises
`ValueError` (or `OSError` from the platform conversion — both caught
alike by `_safe_datetime`, modelled as `valueError`); a timestamp whose
UTC datetime is valid but whose zone-shifted datetime overflows the
supported range raises `OverflowError` ("date value out of range");
otherwise an aware datetime is returned. -/
def fromtimestampTz (offset t : Int) : Except PyExc PyDatetime :=
  if t < -(2 ^ 63) ∨ 2 ^ 63 - 1 < t then .error .overflowError
  else if t < DATETIME_MIN_EPOCH ∨ DATETIME_MAX_EPOCH < t then .error .valueError
  else if t + offset < DATETIME_MIN_EPOCH ∨ DATETIME_MAX_EPOCH < t + offset then
    .error .overflowError
  else .ok ⟨t, offset⟩

/-- The `except (TypeError, ValueError, OSError)` tuple of
`_safe_datetime`. -/
def safeCaught (e : PyExc) : Bool :=
  e = .typeError || e = .valueError || e = .osError

/-- `_safe_datetime` (bilibili.py lines 530-536): falsy input short-circuits
to `None`; otherwise `int(ts)` and `fromtimestamp` run inside a
`try/except (TypeError, ValueError, OSError)` that returns `None` — any
other exception (notably `OverflowError`) propagates. -/
def _safe_datetime (ts : JVal) : Except PyExc (Option PyDatetime) :=
  if pyFalsy ts then .ok none
  else
    match pyInt ts with
    | .error e => if safeCaught e then .ok none else .error e
    | .ok n =>
      match fromtimestampTz SHANGHAI_OFFSET n with
      | .ok d => .ok (some d)
      | .error e => if safeCaught e then .ok none else .error e

/-! ## Normalized items and the three feed fetchers' record mapping

JSON records are embedded as structures of `Option` fields, `none`
standing for an absent key.  Integer-valued JSON fields are `Option Int`,
rendered with `toString` where Python interpolates them. -/

/-- `ContentItem` (bilibili.py lines 492-502): the normalized
representation of a publication. -/
structure ContentItem where
  category : String
  item_id : String
  title : String
  url : String
  author : Option String
  published_at : Option PyDatetime
  summary : Option String
deriving DecidableEq, Repr

/-- `modules.module_author` of a dynamic record. -/
structure DynModuleAuthor where
  name : Option String := none
  pub_ts : Option Int := none
deriving DecidableEq, Repr

/-- `major.archive` of a video-archive dynamic. -/
structure DynArchive where
  title : Option String := none
  bvid : Option String := none
  desc : Option String := none
deriving DecidableEq, Repr

/-- `major.article` of an article dynamic. -/
structure DynArticle where
  title : Option String := none
  jump_url : Option String := none
  desc : Option String := none
deriving DecidableEq, Repr

/-- `major.live_rcmd` of a live-room dynamic. -/
structure DynLive where
  title : Option String := none
  link : Option String := none
  content : Option String := none
deriving DecidableEq, Repr

/-- One entry of `summary.rich_text_nodes` of an opus dynamic. -/
structure DynRichNode where
  text : Option String := none
deriving DecidableEq, Repr

/-- `opus.summary` of an opus dynamic. -/
structure DynOpusSummary where
  text : Option String := none
  rich_text_nodes : Option (List DynRichNode) := none
deriving DecidableEq, Repr

/-- `major.opus` of an opus dynamic. -/
structure DynOpus where
  title : Option String := none
  jump_url : Option String := none
  summary : Option DynOpusSummary := none
deriving DecidableEq, Repr

/-- `module_dynamic.major` of a dynamic record. -/
structure DynMajor where
  type : Option String := none
  archive : Option DynArchive := none
  article : Option DynArticle := none
  live_rcmd : Option DynLive := none
  opus : Option DynOpus := none
deriving DecidableEq, Repr

/-- `module_dynamic.desc` of a dynamic record. -/
structure DynDesc where
  text : Option String := none
deriving DecidableEq, Repr

/-- `modules.module_dynamic` of a dynamic record. -/
structure DynModuleDynamic where
  type : Option String := none
  major : Option DynMajor := none
  desc : Option DynDesc := none
deriving DecidableEq, Repr

/-- `modules` of a dynamic record. -/
structure DynModules where
  module_author : Option DynModuleAuthor := none
  module_dynamic : Option DynModuleDynamic := none
deriving DecidableEq, Repr

/-- One raw record of the dynamic feed response (`data.items[i]`). -/
structure DynRecord where
  id_str : Option String := none
  id : Option Int := none
  type : Option String := none
  modules : Option DynModules := none
deriving DecidableEq, Repr

/-- `raw.get("id_str") or raw.get("id")` (bilibili.py line 559), rendered
to the string Python later interpolates/`str()`s: `none` when both are
falsy (absent, empty `id_str`, or zero `id`). -/
def rawItemId (r : DynRecord) : Option String :=
  let idFallback : Option String :=
    match r.id with
    | some n => if n ≠ 0 then some (toString n) else none
    | none => none
  match r.id_str with
  | some s => if s ≠ "" then some s else idFallback
  | none => idFallback

/-- The synthetic item id of bilibili.py line 616:
`f"dynamic-{mid}-{modules.get('module_author', \x7b\x7d).get('pub_ts', '0')}"`. -/
def syntheticDynamicId (mid : Int) (pubTs : Option Int) : String :=
  "dynamic-" ++ toString mid ++ "-" ++
    (match pubTs with
     | some n => toString n
     | none => "0")

/-- The author-module publish timestamp of a record
(`modules.get('module_author', \x7b\x7d).get('pub_ts')`). -/
def authorPubTs (r : DynRecord) : Option Int :=
  ((r.modules.getD {}).module_author.getD {}).pub_ts

/-- Lift an optional JSON int to a `JVal`. -/
def jvalOfOptInt : Option Int → JVal
  | some n => .jint n
  | none => .jnull

/-- The per-record normalization of `fetch_dynamic` (bilibili.py lines
558-628): type-tag dispatch, title/url/summary fallback chains, published
timestamp via `_safe_datetime` (whose uncaught exceptions propagate), and
the synthetic id fallback. -/
def normalizeDynamicRecord (mid : Int) (r : DynRecord) : Except PyExc ContentItem :=
  let item_id0 := rawItemId r
  let modules := r.modules.getD {}
  let author := (modules.module_author.getD {}).name
  let dynamic_module := modules.module_dynamic.getD {}
  let major := dynamic_module.major.getD {}
  let desc_module := dynamic_module.desc.getD {}
  let branch : Option String × Option String × Option String :=
    if major.type = some "MAJOR_TYPE_ARCHIVE" then
      let archive := major.archive.getD {}
      let title := pyOrStr archive.title "动态投稿"
      let url_item :=
        match archive.bvid with
        | some b => if b ≠ "" then some ("https://www.bilibili.com/video/" ++ b) else none
        | none => none
      (some title, archive.desc, url_item)
    else if major.type = some "MAJOR_TYPE_ARTICLE" then
      let article := major.article.getD {}
      (some (pyOrStr article.title "专栏文章"), article.desc, article.jump_url)
    else if major.type = some "MAJOR_TYPE_LIVE" then
      let live := major.live_rcmd.getD {}
      (some (pyOrStr live.title "直播动态"), live.content, live.link)
    else if major.type = some "MAJOR_TYPE_OPUS" then
      let opus := major.opus.getD {}
      let title := pyOrStr opus.title "图文动态"
      let url_item :=
        match opus.jump_url with
        | some j =>
          if j ≠ "" then
            some (if j.data.take 2 = ['/', '/'] then "https:" ++ j else j)
          else none
        | none => none
      let summary_data := opus.summary.getD {}
      let s0 := summary_data.text
      let s1 := pyOrOpt s0
        (some (String.join ((summary_data.rich_text_nodes.getD []).map
          (fun n => pyOrStr n.text ""))))
      let s2 := pyOrOpt s1 desc_module.text
      (some title, s2, url_item)
    else if dynamic_module.type = some "DYNAMIC_TYPE_WORD" then
      let title := pyOrStr desc_module.text "文字动态"
      (some title, some title, none)
    else (none, none, none)
  let title0 := branch.1
  let summary0 := branch.2.1
  let url0 := branch.2.2
  let title :=
    match pyOrOpt title0 none with
    | some t => t
    | none => pyOrStr desc_module.text (pyOrStr r.type "动态")
  let summary :=
    match pyOrOpt title0 none with
    | some _ => summary0
    | none => pyOrOpt summary0 desc_module.text
  let url_item :=
    match pyOrOpt url0 none with
    | some u => u
    | none =>
      match item_id0 with
      | some i => "https://t.bilibili.com/" ++ i
      | none => "https://t.bilibili.com/"
  let item_id :=
    match item_id0 with
    | some i => i
    | none => syntheticDynamicId mid ((modules.module_author.getD {}).pub_ts)
  match (match modules.module_author with
         | some a => _safe_datetime (jvalOfOptInt a.pub_ts)
         | none => .ok none) with
  | .error e => .error e
  | .ok published =>
    .ok
      { category := "动态"
        item_id := item_id
        title := title
        url := url_item
        author := author
        published_at := published
        summary := summary }

/-- `fetch_dynamic`'s record loop (bilibili.py line 558): only the first
`limit` records of the response are normalized (`items[:limit]`). -/
def fetchDynamicItems (mid : Int) (limit : Nat) (items : List DynRecord) :
    Except PyExc (List ContentItem) :=
  (items.take limit).mapM (normalizeDynamicRecord mid)

/-- One raw record of the video-list response (`data.list.vlist[i]`). -/
structure VideoRec where
  bvid : Option String := none
  aid : Option Int := none
  title : Option String := none
  description : Option String := none
  created : Option Int := none
  author : Option String := none
deriving DecidableEq, Repr

/-- The per-record mapping of `fetch_videos` (bilibili.py lines 666-686).
`str(aid)` renders the Python literal `"None"` when `aid` is absent. -/
def normalizeVideoRecord (r : VideoRec) : Except PyExc ContentItem :=
  let aidStr :=
    match r.aid with
    | some n => toString n
    | none => "None"
  let bvidTruthy := pyOrOpt r.bvid none
  let url_item :=
    match bvidTruthy with
    | some b => "https://www.bilibili.com/video/" ++ b
    | none => "https://www.bilibili.com/video/av" ++ aidStr
  let item_id :=
    match bvidTruthy with
    | some b => b
    | none => aidStr
  match _safe_datetime (jvalOfOptInt r.created) with
  | .error e => .error e
  | .ok created =>
    .ok
      { category := "视频"
        item_id := item_id
        title := pyOrStr r.title "视频投稿"
        url := url_item
        author := r.author
        published_at := created
        summary := r.description }

/-- `fetch_videos`' record loop (bilibili.py line 666): every record of
`vlist` is mapped — there is no client-side `[:limit]` truncation. -/
def fetchVideosItems (vlist : List VideoRec) : Except PyExc (List ContentItem) :=
  vlist.mapM normalizeVideoRecord

/-- One raw record of the article-list response (`data.articles[i]`). -/
structure ArticleRec where
  id : Option Int := none
  cvid : Option Int := none
  title : Option String := none
  summary : Option String := none
  publish_time : Option Int := none
  author_name : Option String := none
deriving DecidableEq, Repr

/-- The per-record mapping of `fetch_articles` (bilibili.py lines 724-742).
`cvid = raw.get("id") or raw.get("cvid")` with zero treated as falsy;
Python renders `None` as `"None"` in the URL and `str(cvid)`. -/
def normalizeArticleRecord (r : ArticleRec) : Except PyExc ContentItem :=
  let cvid : Option Int :=
    match r.id with
    | some n => if n ≠ 0 then some n else r.cvid
    | none => r.cvid
  let cvidStr :=
    match cvid with
    | some n => toString n
    | none => "None"
  match _safe_datetime (jvalOfOptInt r.publish_time) with
  | .error e => .error e
  | .ok publish_time =>
    .ok
      { category := "专栏"
        item_id := cvidStr
        title := pyOrStr r.title "专栏文章"
        url := "https://www.bilibili.com/read/cv" ++ cvidStr
        author := r.author_name
        published_at := publish_time
        summary := r.summary }

/-- `fetch_articles`' record loop (bilibili.py line 724): only the first
`limit` records are normalized (`articles[:limit]`). -/
def fetchArticleItems (limit : Nat) (articles : List ArticleRec) :
    Except PyExc (List ContentItem) :=
  (articles.take limit).mapM normalizeArticleRecord

/-- A response schedule whose first attempt is rate-limited (`-799`) and
whose second attempt succeeds. -/
def retrySchedule : Nat → ApiEnvelope := fun n =>
  if n = 0 then ⟨some (-799), some "rate limited", none⟩ else ⟨some 0, none, none⟩

/-- A response schedule that is rate-limited (`-799`) on every attempt. -/
def always799Schedule : Nat → ApiEnvelope := fun _ =>
  ⟨some (-799), some "rate limited", none⟩

/-! ## Helper lemmas -/

theorem shiftLeft64_eq : (1 : Nat) <<< 64 = 2 ^ 64 := by
  rw [Nat.shiftLeft_eq, one_mul]

theorem shiftLeft64_pos : 0 < (1 : Nat) <<< 64 := by
  rw [shiftLeft64_eq]; positivity

theorem _fmix64_lt (value : Nat) : _fmix64 value < 2 ^ 64 := by
  unfold _fmix64
  have h4 : (((value ^^^ value >>> 33) * 0xFF51AFD7ED558CCD % (1 <<< 64)) ^^^
      ((value ^^^ value >>> 33) * 0xFF51AFD7ED558CCD % (1 <<< 64)) >>> 33) *
      0xC4CEB9FE1A85EC53 % (1 <<< 64) < 2 ^ 64 := by
    rw [shiftLeft64_eq]
    exact Nat.mod_lt _ (by positivity)
  apply Nat.xor_lt_two_pow h4
  calc _ ≤ _ := by rw [Nat.shiftRight_eq_div_pow]; exact Nat.div_le_self _ _
    _ < 2 ^ 64 := h4

theorem _murmur3_finalize_lt (h1 h2 processed : Nat) :
    _murmur3_finalize h1 h2 processed < 2 ^ 128 := by
  unfold _murmur3_finalize
  have hmod : ∀ a : Nat, a % (1 <<< 64) < 2 ^ 64 := by
    intro a; rw [shiftLeft64_eq]; exact Nat.mod_lt _ (by positivity)
  apply Nat.or_lt_two_pow (n := 128)
  · rw [Nat.shiftLeft_eq]
    calc _ < 2 ^ 64 * 2 ^ 64 := by
          exact Nat.mul_lt_mul_of_lt_of_le (hmod _) (le_refl _) (by positivity)
      _ = 2 ^ 128 := by norm_num
  · calc _ < 2 ^ 64 := hmod _
      _ ≤ 2 ^ 128 := Nat.pow_le_pow_right (by norm_num) (by norm_num)

theorem _murmur3_loop_lt (data : List Nat) (h1 h2 processed : Nat) :
    _murmur3_loop data h1 h2 processed < 2 ^ 128 := by
  induction data, h1, h2, processed using _murmur3_loop.induct with
  | case1 b0 b1 b2 b3 b4 b5 b6 b7 b8 b9 b10 b11 b12 b13 b14 b15 rest h1 h2 processed chunk s ih =>
    rw [_murmur3_loop]
    exact ih
  | case2 data h1 h2 processed hne hlen =>
    obtain rfl := List.length_eq_zero.mp hlen
    exact _murmur3_finalize_lt _ _ _
  | case3 data h1 h2 processed hne hlen =>
    rcases data with _ | ⟨b0, data⟩
    · exact absurd rfl hlen
    rcases data with _ | ⟨b1, data⟩
    · exact _murmur3_finalize_lt _ _ _
    rcases data with _ | ⟨b2, data⟩
    · exact _murmur3_finalize_lt _ _ _
    rcases data with _ | ⟨b3, data⟩
    · exact _murmur3_finalize_lt _ _ _
    rcases data with _ | ⟨b4, data⟩
    · exact _murmur3_finalize_lt _ _ _
    rcases data with _ | ⟨b5, data⟩
    · exact _murmur3_finalize_lt _ _ _
    rcases data with _ | ⟨b6, data⟩
    · exact _murmur3_finalize_lt _ _ _
    rcases data with _ | ⟨b7, data⟩
    · exact _murmur3_finalize_lt _ _ _
    rcases data with _ | ⟨b8, data⟩
    · exact _murmur3_finalize_lt _ _ _
    rcases data with _ | ⟨b9, data⟩
    · exact _murmur3_finalize_lt _ _ _
    rcases data with _ | ⟨b10, data⟩
    · exact _murmur3_finalize_lt _ _ _
    rcases data with _ | ⟨b11, data⟩
    · exact _murmur3_finalize_lt _ _ _
    rcases data with _ | ⟨b12, data⟩
    · exact _murmur3_finalize_lt _ _ _
    rcases data with _ | ⟨b13, data⟩
    · exact _murmur3_finalize_lt _ _ _
    rcases data with _ | ⟨b14, data⟩
    · exact _murmur3_finalize_lt _ _ _
    rcases data with _ | ⟨b15, data⟩
    · exact _murmur3_finalize_lt _ _ _
    exact absurd rfl (hne b0 b1 b2 b3 b4 b5 b6 b7 b8 b9 b10 b11 b12 b13 b14 b15 data)

/-! ## C5 -/

/-- C5: `_murmur3_x64_128` is a pure total function — it is a computable
Lean function defined for every byte list and every seed (hence it
terminates and raises no error, and two evaluations on the same input are
definitionally equal), and its result is a well-defined 128-bit value. -/
theorem murmur3_x64_128_pure_total (data : List Nat) (seed : Nat) :
    _murmur3_x64_128 data seed < 2 ^ 128 :=
  _murmur3_loop_lt data seed seed 0

/-! ## C3 -/

theorem mapM_get?_map (idxs : List Nat) (raw : List Char)
    (h : ∀ i ∈ idxs, i < raw.length) :
    List.mapM (fun idx => raw.get? idx) idxs =
      some (idxs.map (fun i => raw.getD i ' ')) := by
  induction idxs with
  | nil => rfl
  | cons a as ih =>
    have ha : a < raw.length := h a (by simp)
    have hget : raw.get? a = some (raw.getD a ' ') := by
      rw [List.get?_eq_getElem?, List.getElem?_eq_getElem ha, List.getD_eq_getElem _ _ ha]
    rw [List.mapM_cons, hget, ih (fun i hi => h i (by simp [hi]))]
    rfl

theorem order_entries_lt_64 : ∀ i ∈ _WBI_MIXIN_KEY_ORDER, i < 64 := by decide

/-- C3: for a navigation response carrying both asset URLs whose
concatenated filename stems form a 64-character raw key,
`_compute_wbi_mixin_key` succeeds with a key of exactly 32 characters whose
`i`-th character is the raw key's character at index
`_WBI_MIXIN_KEY_ORDER[i]`; a missing `img_url` or `sub_url` is an error. -/
theorem compute_wbi_mixin_key_spec (img sub : String)
    (himg : img ≠ "") (hsub : sub ≠ "")
    (h64 : (_extract_wbi_key img ++ _extract_wbi_key sub).length = 64) :
    (∃ key, _compute_wbi_mixin_key ⟨some img, some sub⟩ = .ok key ∧
      key.length = 32 ∧
      (∀ i, i < 32 →
        key.data.getD i ' ' =
          (_extract_wbi_key img ++ _extract_wbi_key sub).data.getD
            (_WBI_MIXIN_KEY_ORDER.getD i 0) ' ')) ∧
    (∀ o, _compute_wbi_mixin_key ⟨none, o⟩ = .error .missingUrl) ∧
    (∀ o, _compute_wbi_mixin_key ⟨o, none⟩ = .error .missingUrl) := by
  refine ⟨?_, ?_, ?_⟩
  · have hraw : (_extract_wbi_key img ++ _extract_wbi_key sub).data.length = 64 := by
      have : (_extract_wbi_key img ++ _extract_wbi_key sub).length = 64 := h64
      exact this
    set raw := (_extract_wbi_key img ++ _extract_wbi_key sub).data with hrawdef
    have hmap : mixinFromRawKey raw =
        some ((_WBI_MIXIN_KEY_ORDER.map (fun i => raw.getD i ' ')).take 32) := by
      unfold mixinFromRawKey
      rw [mapM_get?_map _ raw (fun i hi => by rw [hraw]; exact order_entries_lt_64 i hi)]
      rfl
    refine ⟨String.mk ((_WBI_MIXIN_KEY_ORDER.map (fun i => raw.getD i ' ')).take 32), ?_, ?_, ?_⟩
    · unfold _compute_wbi_mixin_key
      rw [if_pos]
      · simp only [Option.getD_some]
        rw [hmap]
      · constructor
        · simp [truthyOptStr, himg]
        · simp [truthyOptStr, hsub]
    · show ((_WBI_MIXIN_KEY_ORDER.map (fun i => raw.getD i ' ')).take 32).length = 32
      rw [List.length_take, List.length_map]
      decide
    · intro i hi
      show ((_WBI_MIXIN_KEY_ORDER.map (fun i => raw.getD i ' ')).take 32).getD i ' ' = _
      rw [List.getD_eq_getElem?_getD, List.getElem?_take, if_pos hi, List.getElem?_map]
      have hilen : i < _WBI_MIXIN_KEY_ORDER.length := by
        have : _WBI_MIXIN_KEY_ORDER.length = 64 := by decide
        omega
      rw [List.getElem?_eq_getElem hilen]
      simp [List.getD_eq_getElem _ _ hilen, List.getElem?_eq_getElem hilen]
  · intro o
    unfold _compute_wbi_mixin_key
    rw [if_neg]
    intro hc
    simpa [truthyOptStr] using hc.1
  · intro o
    unfold _compute_wbi_mixin_key
    rw [if_neg]
    intro hc
    simpa [truthyOptStr] using hc.2

/-- Witness for C3 at a concrete pair of 32-character stems. -/
theorem compute_wbi_mixin_key_spec_witness :
    ∃ key, _compute_wbi_mixin_key
        ⟨some "https://i0.hdslb.com/bfs/wbi/0123456789abcdef0123456789abcdef.png",
         some "https://i0.hdslb.com/bfs/wbi/ABCDEFGHIJKLMNOPQRSTUVWXYZabcdef.png"⟩ = .ok key ∧
      key.length = 32 ∧
      (∀ i, i < 32 →
        key.data.getD i ' ' =
          (_extract_wbi_key "https://i0.hdslb.com/bfs/wbi/0123456789abcdef0123456789abcdef.png" ++
            _extract_wbi_key "https://i0.hdslb.com/bfs/wbi/ABCDEFGHIJKLMNOPQRSTUVWXYZabcdef.png").data.getD
            (_WBI_MIXIN_KEY_ORDER.getD i 0) ' ') :=
  (compute_wbi_mixin_key_spec
    "https://i0.hdslb.com/bfs/wbi/0123456789abcdef0123456789abcdef.png"
    "https://i0.hdslb.com/bfs/wbi/ABCDEFGHIJKLMNOPQRSTUVWXYZabcdef.png"
    (by decide) (by decide) (by decide)).1

/-! ## C10 -/

theorem mapM_except_length {α β ε : Type} (f : α → Except ε β) :
    ∀ (l : List α) (out : List β), l.mapM f = .ok out → out.length = l.length := by
  intro l
  induction l with
  | nil =>
    intro out h
    simp only [List.mapM_nil, pure, Except.pure] at h
    cases h
    rfl
  | cons a as ih =>
    intro out h
    rw [List.mapM_cons] at h
    cases hfa : f a with
    | error e => rw [hfa] at h; simp [Bind.bind, Except.bind] at h
    | ok b =>
      rw [hfa] at h
      cases hm : List.mapM f as with
      | error e =>
        rw [hm] at h
        simp [Bind.bind, Except.bind, pure, Except.pure] at h
      | ok bs =>
        rw [hm] at h
        simp only [Bind.bind, Except.bind, pure, Except.pure, Except.ok.injEq] at h
        subst h
        simp [ih bs hm]

/-- C10: `fetch_dynamic` and `fetch_articles` truncate client-side to at
most `limit` items, while `fetch_videos` returns one item per record of
the response's `vlist`, with no client-side truncation. -/
theorem fetch_truncation_spec :
    (∀ (mid : Int) (limit : Nat) (items : List DynRecord) (out : List ContentItem),
      fetchDynamicItems mid limit items = .ok out → out.length ≤ limit) ∧
    (∀ (limit : Nat) (articles : List ArticleRec) (out : List ContentItem),
      fetchArticleItems limit articles = .ok out → out.length ≤ limit) ∧
    (∀ (vlist : List VideoRec) (out : List ContentItem),
      fetchVideosItems vlist = .ok out → out.length = vlist.length) := by
  refine ⟨?_, ?_, ?_⟩
  · intro mid limit items out h
    have := mapM_except_length (normalizeDynamicRecord mid) (items.take limit) out h
    rw [this, List.length_take]
    exact min_le_left _ _
  · intro limit articles out h
    have := mapM_except_length normalizeArticleRecord (articles.take limit) out h
    rw [this, List.length_take]
    exact min_le_left _ _
  · intro vlist out h
    exact mapM_except_length normalizeVideoRecord vlist out h

/-- Witness for C10: three video records map to three items even at
`limit = 1`-style page sizes, while two dynamic records at `limit = 1`
yield one item. -/
theorem fetch_truncation_spec_witness :
    (∃ out, fetchVideosItems [{ bvid := some "BV1" }, { aid := some 2 }, {}] = .ok out ∧
      out.length = 3) ∧
    (∃ out, fetchDynamicItems 5 1 [{}, {}] = .ok out ∧ out.length ≤ 1) ∧
    (∃ out, fetchArticleItems 1 [{}, {}] = .ok out ∧ out.length ≤ 1) := by
  refine ⟨?_, ?_, ?_⟩
  · cases hv : fetchVideosItems [{ bvid := some "BV1" }, { aid := some 2 }, {}] with
    | error e =>
      have hsome : (fetchVideosItems [{ bvid := some "BV1" }, { aid := some 2 }, {}]).toOption.isSome =
          true := by decide
      rw [hv] at hsome
      simp [Except.toOption] at hsome
    | ok out => exact ⟨out, rfl, fetch_truncation_spec.2.2 _ out hv⟩
  · cases hv : fetchDynamicItems 5 1 [{}, {}] with
    | error e =>
      have hsome : (fetchDynamicItems 5 1 [{}, {}]).toOption.isSome = true := by decide
      rw [hv] at hsome
      simp [Except.toOption] at hsome
    | ok out => exact ⟨out, rfl, fetch_truncation_spec.1 5 1 _ out hv⟩
  · cases hv : fetchArticleItems 1 [{}, {}] with
    | error e =>
      have hsome : (fetchArticleItems 1 [{}, {}]).toOption.isSome = true := by decide
      rw [hv] at hsome
      simp [Except.toOption] at hsome
    | ok out => exact ⟨out, rfl, fetch_truncation_spec.2.1 1 _ out hv⟩

/-! ## C8 -/

theorem toDigitsCore_length_ge (b : Nat) :
    ∀ (f n : Nat) (acc : List Char), acc.length ≤ (Nat.toDigitsCore b f n acc).length := by
  intro f
  induction f with
  | zero => intro n acc; simp [Nat.toDigitsCore]
  | succ f ih =>
    intro n acc
    show acc.length ≤ (Nat.toDigitsCore b (f + 1) n acc).length
    rw [Nat.toDigitsCore]
    split
    · simp
    · calc acc.length ≤ ((n % b).digitChar :: acc).length := by simp
        _ ≤ _ := ih _ _

theorem toDigits_ne_nil (b n : Nat) : Nat.toDigits b n ≠ [] := by
  unfold Nat.toDigits
  rw [Nat.toDigitsCore]
  split
  · simp
  · intro hcontr
    have h1 : (1 : Nat) ≤ 0 := by
      calc (1 : Nat) = [(n % b).digitChar].length := by simp
        _ ≤ (Nat.toDigitsCore b n (n / b) [(n % b).digitChar]).length := toDigitsCore_length_ge _ _ _ _
        _ = ([] : List Char).length := by rw [hcontr]
        _ = 0 := rfl
    omega

theorem nat_repr_ne_empty (n : Nat) : Nat.repr n ≠ "" := by
  unfold Nat.repr List.asString
  intro h
  have : Nat.toDigits 10 n = [] := congrArg String.data h
  exact toDigits_ne_nil 10 n this

theorem toString_int_ne_empty (n : Int) : toString n ≠ "" := by
  show Int.repr n ≠ ""
  unfold Int.repr
  match n with
  | .ofNat m => exact nat_repr_ne_empty m
  | .negSucc m =>
    intro h
    have hl := congrArg String.length h
    rw [String.length_append] at hl
    have hm : ("-" : String).length = 1 := rfl
    have hz : ("" : String).length = 0 := rfl
    omega

theorem rawItemId_ne_empty (r : DynRecord) (i : String) (h : rawItemId r = some i) :
    i ≠ "" := by
  obtain ⟨ids, idv, ty, mods⟩ := r
  cases ids with
  | some s =>
    cases idv with
    | some n =>
      simp only [rawItemId] at h
      by_cases hse : s = ""
      · rw [if_neg (by simp [hse])] at h
        by_cases hnz : n = 0
        · rw [if_neg (by simp [hnz])] at h; cases h
        · rw [if_pos hnz] at h
          cases h; exact toString_int_ne_empty n
      · rw [if_pos hse] at h
        cases h; exact hse
    | none =>
      simp only [rawItemId] at h
      by_cases hse : s = ""
      · rw [if_neg (by simp [hse])] at h; cases h
      · rw [if_pos hse] at h
        cases h; exact hse
  | none =>
    cases idv with
    | some n =>
      simp only [rawItemId] at h
      by_cases hnz : n = 0
      · rw [if_neg (by simp [hnz])] at h; cases h
      · rw [if_pos hnz] at h
        cases h; exact toString_int_ne_empty n
    | none => simp only [rawItemId] at h; cases h

theorem syntheticDynamicId_ne_empty (mid : Int) (p : Option Int) :
    syntheticDynamicId mid p ≠ "" := by
  unfold syntheticDynamicId
  intro h
  have hl := congrArg String.length h
  rw [String.length_append, String.length_append, String.length_append] at hl
  have hm : ("dynamic-" : String).length = 8 := rfl
  have hz : ("" : String).length = 0 := rfl
  omega

theorem normalizeDynamicRecord_item_id (mid : Int) (r : DynRecord) (item : ContentItem)
    (hok : normalizeDynamicRecord mid r = .ok item) :
    item.item_id =
      match rawItemId r with
      | some i => i
      | none => syntheticDynamicId mid (authorPubTs r) := by
  simp only [normalizeDynamicRecord] at hok
  split at hok
  · exact absurd hok (by simp)
  · rw [Except.ok.injEq] at hok
    subst hok
    rfl

/-- C8: every item produced by `fetch_dynamic`'s normalization has a
non-empty `item_id`; when the record lacks both `id_str` and `id`, the id
is the synthetic `dynamic-{mid}-{pub_ts}` string, a deterministic function
of exactly the account id and the author-module publish timestamp (so two
id-less records agreeing on those yield the same id). -/
theorem dynamic_item_id_spec (mid : Int) (r : DynRecord) (item : ContentItem)
    (hok : normalizeDynamicRecord mid r = .ok item) :
    item.item_id ≠ "" ∧
    (r.id_str = none → r.id = none →
      item.item_id = syntheticDynamicId mid (authorPubTs r)) ∧
    (∀ (r₂ : DynRecord) (item₂ : ContentItem),
      normalizeDynamicRecord mid r₂ = .ok item₂ →
      r.id_str = none → r.id = none → r₂.id_str = none → r₂.id = none →
      authorPubTs r₂ = authorPubTs r → item₂.item_id = item.item_id) := by
  have hid := normalizeDynamicRecord_item_id mid r item hok
  refine ⟨?_, ?_, ?_⟩
  · rw [hid]
    split
    · rename_i i hi
      exact rawItemId_ne_empty r i hi
    · exact syntheticDynamicId_ne_empty _ _
  · intro h1 h2
    rw [hid]
    have : rawItemId r = none := by unfold rawItemId; rw [h1, h2]
    rw [this]
  · intro r₂ item₂ hok₂ h1 h2 h3 h4 hpub
    have hid₂ := normalizeDynamicRecord_item_id mid r₂ item₂ hok₂
    have hr : rawItemId r = none := by unfold rawItemId; rw [h1, h2]
    have hr₂ : rawItemId r₂ = none := by unfold rawItemId; rw [h3, h4]
    rw [hid, hid₂, hr, hr₂, hpub]

/-- Witness for C8 at a concrete id-less record. -/
theorem dynamic_item_id_spec_witness :
    ∃ item, normalizeDynamicRecord 5
        { modules := some { module_author := some { pub_ts := some 42 } } } = .ok item ∧
      item.item_id ≠ "" ∧
      item.item_id = syntheticDynamicId 5
        (authorPubTs { modules := some { module_author := some { pub_ts := some 42 } } }) := by
  cases hv : normalizeDynamicRecord 5
      { modules := some { module_author := some { pub_ts := some 42 } } } with
  | error e =>
    have hsome : (normalizeDynamicRecord 5
        { modules := some { module_author := some { pub_ts := some 42 } } }).toOption.isSome =
        true := by decide
    rw [hv] at hsome
    simp [Except.toOption] at hsome
  | ok item =>
    have h := dynamic_item_id_spec 5 _ item hv
    exact ⟨item, rfl, h.1, h.2.1 rfl rfl⟩

/-! ## C9 -/

/-- Counterexample for C9: `_safe_datetime(10 ** 20)` raises
`OverflowError` ("timestamp out of range for platform time_t"), which is
not in the caught `(TypeError, ValueError, OSError)` tuple — the function
is not total on arbitrarily large numbers. -/
theorem safe_datetime_overflow_cex :
    _safe_datetime (.jint (10 ^ 20)) = .error .overflowError := by decide

theorem two_pow_63_int : (2 : Int) ^ 63 = 9223372036854775808 := by norm_num

theorem safe_datetime_error_overflow (ts : JVal) (e : PyExc)
    (h : _safe_datetime ts = .error e) : e = .overflowError := by
  unfold _safe_datetime at h
  split at h
  · exact Except.noConfusion h
  · split at h
    · rename_i e' heq
      split at h
      · exact Except.noConfusion h
      · rename_i hcaught
        injection h with h2
        subst h2
        cases e' <;> first | rfl | exact absurd (by decide) hcaught
    · split at h
      · exact Except.noConfusion h
      · split at h
        · exact Except.noConfusion h
        · rename_i e' heq2 hcaught
          injection h with h2
          subst h2
          cases e' <;> first | rfl | exact absurd (by decide) hcaught

theorem parseIntStr_error_eq (s : String) (e : PyExc) (h : parseIntStr s = .error e) :
    e = .valueError := by
  unfold parseIntStr at h
  split at h
  all_goals split at h
  all_goals first | exact Except.noConfusion h | (injection h with h2; exact h2.symm)

/-- C9 (amended): `_safe_datetime` never raises anything but
`OverflowError`, and `OverflowError` escapes only for numeric values whose
timestamp lies beyond the representable range; a falsy input (`None`,
zero, `""`) yields `None`, a non-numeric string yields `None`, and an
epoch-seconds value in the representable window yields an aware UTC+8
datetime. -/
theorem safe_datetime_amended (ts : JVal) :
    ((∃ r, _safe_datetime ts = .ok r) ∨ _safe_datetime ts = .error .overflowError) ∧
    (pyFalsy ts = true → _safe_datetime ts = .ok none) ∧
    (∀ s e, ts = .jstr s → parseIntStr s = .error e → _safe_datetime ts = .ok none) ∧
    (∀ n, pyInt ts = .ok n → pyFalsy ts = false →
      DATETIME_MIN_EPOCH ≤ n → n + SHANGHAI_OFFSET ≤ DATETIME_MAX_EPOCH →
      _safe_datetime ts = .ok (some ⟨n, SHANGHAI_OFFSET⟩)) := by
  refine ⟨?_, ?_, ?_, ?_⟩
  · cases h : _safe_datetime ts with
    | ok r => exact Or.inl ⟨r, rfl⟩
    | error e =>
      refine Or.inr ?_
      rw [safe_datetime_error_overflow ts e h]
  · intro hf
    unfold _safe_datetime
    rw [if_pos hf]
  · intro s e hts hparse
    subst hts
    by_cases hs : s = ""
    · subst hs
      unfold _safe_datetime
      rw [if_pos (by decide)]
    · unfold _safe_datetime
      rw [if_neg (by simp [pyFalsy, hs])]
      have hpyint : pyInt (JVal.jstr s) = Except.error e := hparse
      rw [hpyint, parseIntStr_error_eq s e hparse]
      rfl
  · intro n hn hf hlo hhi
    unfold _safe_datetime
    rw [if_neg (by simp [hf])]
    rw [hn]
    have hlo2 : (-62135596800 : Int) ≤ n := hlo
    have hhi2 : n + 28800 ≤ (253402300799 : Int) := hhi
    have hd : fromtimestampTz SHANGHAI_OFFSET n = .ok ⟨n, SHANGHAI_OFFSET⟩ := by
      have e1 : DATETIME_MIN_EPOCH = -62135596800 := rfl
      have e2 : DATETIME_MAX_EPOCH = 253402300799 := rfl
      have e3 : SHANGHAI_OFFSET = 28800 := rfl
      unfold fromtimestampTz
      rw [two_pow_63_int, e1, e2, e3]
      rw [if_neg (by omega), if_neg (by omega), if_neg (by omega)]
    show (match fromtimestampTz SHANGHAI_OFFSET n with
          | .ok d => (Except.ok (some d) : Except PyExc (Option PyDatetime))
          | .error e => if safeCaught e = true then .ok none else .error e) =
      Except.ok (some ⟨n, SHANGHAI_OFFSET⟩)
    rw [hd]

/-- Witness for C9 at concrete inputs: a falsy value, a non-numeric
string, and a valid epoch value. -/
theorem safe_datetime_amended_witness :
    _safe_datetime .jnull = .ok none ∧
    _safe_datetime (.jstr "oops") = .ok none ∧
    _safe_datetime (.jint 1700000000) = .ok (some ⟨1700000000, SHANGHAI_OFFSET⟩) :=
  ⟨(safe_datetime_amended .jnull).2.1 (by decide),
   (safe_datetime_amended (.jstr "oops")).2.2.1 "oops" .valueError rfl (by decide),
   (safe_datetime_amended (.jint 1700000000)).2.2.2 1700000000 rfl (by decide)
     (by decide) (by decide)⟩

/-! ## PDict lemmas -/

theorem setKey_fun_pred (k v k' : String) (h : k' ≠ k) :
    ((fun q : String × String => decide (q.1 = k')) ∘
      (fun q : String × String => if q.1 = k then (k, v) else q)) =
    (fun q : String × String => decide (q.1 = k')) := by
  funext p
  by_cases hp : p.1 = k
  · simp [hp, Ne.symm h]
  · simp [hp]

theorem getVal_setKey_same (d : PDict) (k v : String) :
    getVal (setKey d k v) k = some v := by
  unfold setKey
  split
  · rename_i hany
    unfold getVal
    rw [List.find?_map]
    have hfun : ((fun q : String × String => decide (q.1 = k)) ∘
        (fun q : String × String => if q.1 = k then (k, v) else q)) =
        (fun q : String × String => decide (q.1 = k)) := by
      funext p
      by_cases hp : p.1 = k <;> simp [hp]
    rw [hfun]
    obtain ⟨x, hx, hpx⟩ := List.any_eq_true.mp hany
    have hsome : (List.find? (fun q : String × String => decide (q.1 = k)) d).isSome := by
      rw [List.find?_isSome]
      exact ⟨x, hx, by simpa using hpx⟩
    obtain ⟨y, hy⟩ := Option.isSome_iff_exists.mp hsome
    have hyk : y.1 = k := by simpa using List.find?_some hy
    rw [hy]
    simp [hyk]
  · rename_i hany
    unfold getVal
    rw [List.find?_append]
    have hnone : List.find? (fun q : String × String => decide (q.1 = k)) d = none := by
      rw [List.find?_eq_none]
      intro x hx hpx
      exact hany (List.any_eq_true.mpr ⟨x, hx, hpx⟩)
    rw [hnone]
    simp [List.find?]

theorem getVal_setKey_other (d : PDict) (k v k' : String) (h : k' ≠ k) :
    getVal (setKey d k v) k' = getVal d k' := by
  unfold setKey
  split
  · unfold getVal
    rw [List.find?_map, setKey_fun_pred k v k' h]
    cases hf : List.find? (fun q : String × String => decide (q.1 = k')) d with
    | none => rfl
    | some y =>
      have hyk : y.1 = k' := by simpa using List.find?_some hf
      have hyne : ¬ y.1 = k := by rw [hyk]; exact h
      simp [hyne]
  · unfold getVal
    rw [List.find?_append]
    have hlast : List.find? (fun q : String × String => decide (q.1 = k')) [(k, v)] = none := by
      simp [List.find?, Ne.symm h]
    rw [hlast]
    cases List.find? (fun q : String × String => decide (q.1 = k')) d <;> rfl

/-! ## C6 -/

theorem ticket_guard_false (st : TicketState) (now : Int)
    (h : st.ticket = none ∨ st.expiresAt - 60 ≤ now) :
    (match st.ticket with
     | some t => t ≠ "" && decide (now < st.expiresAt - 60)
     | none => false) = false := by
  cases hst : st.ticket with
  | none => rfl
  | some t =>
    rcases h with hnone | hle
    · rw [hst] at hnone; cases hnone
    · simp only []
      have : ¬ (now < st.expiresAt - 60) := by omega
      simp [this]

/-- C6: the ticket ensure-function short-circuits with zero network calls
while `now < expiry - 60` holds for a cached ticket; otherwise (stale or
absent ticket) it performs the issuance call and, on success, caches
`expiry = ts + 3 days` and mirrors ticket and expiry into the cookie jar;
hence two calls inside the validity window perform exactly one network
call in total. -/
theorem ensure_bili_ticket_spec :
    (∀ (st : TicketState) (jar : PDict) (now ts : Int) (net : Except String (Option String))
      (t : String), st.ticket = some t → t ≠ "" → now < st.expiresAt - 60 →
      _ensure_bili_ticket st jar now ts net = (st, jar, 0)) ∧
    (∀ (st : TicketState) (jar : PDict) (now ts : Int) (net : Except String (Option String)),
      (st.ticket = none ∨ st.expiresAt - 60 ≤ now) →
      (_ensure_bili_ticket st jar now ts net).2.2 = 1) ∧
    (∀ (st : TicketState) (jar : PDict) (now ts : Int) (t : String),
      (st.ticket = none ∨ st.expiresAt - 60 ≤ now) → t ≠ "" →
      (_ensure_bili_ticket st jar now ts (.ok (some t))).1 =
        ⟨some t, ts + 3 * 24 * 60 * 60⟩ ∧
      getVal (_ensure_bili_ticket st jar now ts (.ok (some t))).2.1 "bili_ticket" = some t ∧
      getVal (_ensure_bili_ticket st jar now ts (.ok (some t))).2.1 "bili_ticket_expires" =
        some (toString (ts + 3 * 24 * 60 * 60))) ∧
    (∀ (jar : PDict) (now ts now' ts' : Int) (t : String)
      (net' : Except String (Option String)), t ≠ "" →
      now' < (ts + 3 * 24 * 60 * 60) - 60 →
      (_ensure_bili_ticket ⟨none, 0⟩ jar now ts (.ok (some t))).2.2 +
        (_ensure_bili_ticket (_ensure_bili_ticket ⟨none, 0⟩ jar now ts (.ok (some t))).1
          (_ensure_bili_ticket ⟨none, 0⟩ jar now ts (.ok (some t))).2.1 now' ts' net').2.2 = 1) := by
  have hvalid : ∀ (st : TicketState) (jar : PDict) (now ts : Int)
      (net : Except String (Option String)) (t : String),
      st.ticket = some t → t ≠ "" → now < st.expiresAt - 60 →
      _ensure_bili_ticket st jar now ts net = (st, jar, 0) := by
    intro st jar now ts net t hticket hne hwin
    simp only [_ensure_bili_ticket, hticket]
    rw [if_pos (by simp [hne, hwin])]
  have hcall : ∀ (st : TicketState) (jar : PDict) (now ts : Int)
      (net : Except String (Option String)),
      (st.ticket = none ∨ st.expiresAt - 60 ≤ now) →
      (_ensure_bili_ticket st jar now ts net).2.2 = 1 := by
    intro st jar now ts net hstale
    simp only [_ensure_bili_ticket]
    rw [if_neg (by rw [ticket_guard_false st now hstale]; simp)]
    cases net with
    | error e => rfl
    | ok o =>
      cases o with
      | none => rfl
      | some t =>
        show (if t ≠ "" then
            (({ ticket := some t, expiresAt := ts + 3 * 24 * 60 * 60 } : TicketState),
              setKey (setKey jar "bili_ticket" t) "bili_ticket_expires"
                (toString (ts + 3 * 24 * 60 * 60)), 1)
          else (st, jar, 1)).2.2 = 1
        split <;> rfl
  have hsuccess : ∀ (st : TicketState) (jar : PDict) (now ts : Int) (t : String),
      (st.ticket = none ∨ st.expiresAt - 60 ≤ now) → t ≠ "" →
      _ensure_bili_ticket st jar now ts (.ok (some t)) =
        (⟨some t, ts + 3 * 24 * 60 * 60⟩,
         setKey (setKey jar "bili_ticket" t) "bili_ticket_expires"
           (toString (ts + 3 * 24 * 60 * 60)), 1) := by
    intro st jar now ts t hstale ht
    simp only [_ensure_bili_ticket]
    rw [if_neg (by rw [ticket_guard_false st now hstale]; simp)]
    show (if t ≠ "" then
        (({ ticket := some t, expiresAt := ts + 3 * 24 * 60 * 60 } : TicketState),
          setKey (setKey jar "bili_ticket" t) "bili_ticket_expires"
            (toString (ts + 3 * 24 * 60 * 60)), 1)
      else (st, jar, 1)) =
      (⟨some t, ts + 3 * 24 * 60 * 60⟩,
       setKey (setKey jar "bili_ticket" t) "bili_ticket_expires"
         (toString (ts + 3 * 24 * 60 * 60)), 1)
    rw [if_pos ht]
  refine ⟨hvalid, hcall, ?_, ?_⟩
  · intro st jar now ts t hstale ht
    rw [hsuccess st jar now ts t hstale ht]
    refine ⟨rfl, ?_, ?_⟩
    · rw [getVal_setKey_other _ _ _ _ (by decide), getVal_setKey_same]
    · rw [getVal_setKey_same]
  · intro jar now ts now' ts' t net' ht hwin
    rw [hsuccess ⟨none, 0⟩ jar now ts t (Or.inl rfl) ht]
    rw [hvalid _ _ now' ts' net' t rfl ht hwin]
    rfl

/-- Witness for C6 at concrete values: a fresh cache performs one call and
mirrors the ticket; a second call inside the window performs none. -/
theorem ensure_bili_ticket_spec_witness :
    (_ensure_bili_ticket ⟨none, 0⟩ [] 1000 1000 (.ok (some "tkt"))).1 =
      ⟨some "tkt", 1000 + 3 * 24 * 60 * 60⟩ ∧
    getVal (_ensure_bili_ticket ⟨none, 0⟩ [] 1000 1000 (.ok (some "tkt"))).2.1
      "bili_ticket" = some "tkt" ∧
    getVal (_ensure_bili_ticket ⟨none, 0⟩ [] 1000 1000 (.ok (some "tkt"))).2.1
      "bili_ticket_expires" = some (toString ((1000 : Int) + 3 * 24 * 60 * 60)) ∧
    (_ensure_bili_ticket ⟨none, 0⟩ [] 1000 1000 (.ok (some "tkt"))).2.2 +
      (_ensure_bili_ticket (_ensure_bili_ticket ⟨none, 0⟩ [] 1000 1000 (.ok (some "tkt"))).1
        (_ensure_bili_ticket ⟨none, 0⟩ [] 1000 1000 (.ok (some "tkt"))).2.1 2000 2000
        (.error "down")).2.2 = 1 := by
  have h3 := ensure_bili_ticket_spec.2.2.1 ⟨none, 0⟩ [] 1000 1000 "tkt" (Or.inl rfl) (by decide)
  have h4 := ensure_bili_ticket_spec.2.2.2 [] 1000 1000 2000 2000 "tkt" (.error "down")
    (by decide) (by decide)
  exact ⟨h3.1, h3.2.1, h3.2.2, h4⟩

/-! ## C7 -/

/-- C7: `_ensure_buvid` returns normally for every outcome of the
fetch-and-activate block and always leaves the device state initialized;
on a raised exception it logs one warning, synthesizes local ids
(`rand + "infoc"`) and stores a random fingerprint cookie; and
`_ensure_bili_ticket` swallows any raised exception, leaving cache and
cookie jar unchanged. -/
theorem bootstrap_degradation_spec :
    (∀ (st : BuvidState) (jar : PDict) (outcome : Except String (String × String × String))
      (r3 r4 rfp : String),
      (_ensure_buvid st jar outcome r3 r4 rfp).state.fetched = true) ∧
    (∀ (st : BuvidState) (jar : PDict) (e : String) (r3 r4 rfp : String),
      st.fetched = false →
      pyOrOpt (getVal jar "buvid3") none = none →
      (_ensure_buvid st jar (.error e) r3 r4 rfp).warnings = 1 ∧
      (_ensure_buvid st jar (.error e) r3 r4 rfp).state.pair =
        some (r3 ++ "infoc", r4 ++ "infoc") ∧
      getVal (_ensure_buvid st jar (.error e) r3 r4 rfp).jar "buvid_fp" = some rfp ∧
      getVal (_ensure_buvid st jar (.error e) r3 r4 rfp).jar "buvid3" =
        some (r3 ++ "infoc") ∧
      getVal (_ensure_buvid st jar (.error e) r3 r4 rfp).jar "buvid4" =
        some (r4 ++ "infoc")) ∧
    (∀ (st : TicketState) (jar : PDict) (now ts : Int) (e : String),
      ∃ ncalls, _ensure_bili_ticket st jar now ts (.error e) = (st, jar, ncalls)) := by
  refine ⟨?_, ?_, ?_⟩
  · intro st jar outcome r3 r4 rfp
    simp only [_ensure_buvid]
    by_cases hf : st.fetched = true
    · rw [if_pos hf]
      exact hf
    · rw [if_neg hf]
      split
      · rfl
      · cases outcome with
        | error e => rfl
        | ok x =>
          obtain ⟨b3, b4, fp⟩ := x
          rfl
  · intro st jar e r3 r4 rfp hf h3
    have hbody : _ensure_buvid st jar (.error e) r3 r4 rfp =
        ⟨⟨true, some (r3 ++ "infoc", r4 ++ "infoc")⟩,
         setKey (setKey (setKey (setKey jar "buvid_fp" rfp) "buvid3" (r3 ++ "infoc"))
           "buvid4" (r4 ++ "infoc")) "opus-goback" "1", 1⟩ := by
      simp only [_ensure_buvid]
      rw [if_neg (by simp [hf]), h3]
    rw [hbody]
    refine ⟨rfl, rfl, ?_, ?_, ?_⟩
    · rw [getVal_setKey_other _ _ _ _ (by decide), getVal_setKey_other _ _ _ _ (by decide),
        getVal_setKey_other _ _ _ _ (by decide), getVal_setKey_same]
    · rw [getVal_setKey_other _ _ _ _ (by decide), getVal_setKey_other _ _ _ _ (by decide),
        getVal_setKey_same]
    · rw [getVal_setKey_other _ _ _ _ (by decide), getVal_setKey_same]
  · intro st jar now ts e
    simp only [_ensure_bili_ticket]
    split
    · exact ⟨0, rfl⟩
    · exact ⟨1, rfl⟩

/-- Witness for C7: a failed bootstrap at a concrete state degrades to
synthesized identifiers, and a failed ticket refresh leaves the state
untouched. -/
theorem bootstrap_degradation_spec_witness :
    (_ensure_buvid ⟨false, none⟩ [] (.error "net down") "aaaa" "bbbb" "ffff").state.fetched =
      true ∧
    (_ensure_buvid ⟨false, none⟩ [] (.error "net down") "aaaa" "bbbb" "ffff").warnings = 1 ∧
    (_ensure_buvid ⟨false, none⟩ [] (.error "net down") "aaaa" "bbbb" "ffff").state.pair =
      some ("aaaa" ++ "infoc", "bbbb" ++ "infoc") ∧
    (∃ ncalls, _ensure_bili_ticket ⟨some "t", 99⟩ [] 50 50 (.error "boom") =
      (⟨some "t", 99⟩, [], ncalls)) := by
  have h1 := bootstrap_degradation_spec.1 ⟨false, none⟩ [] (.error "net down") "aaaa" "bbbb" "ffff"
  have h2 := bootstrap_degradation_spec.2.1 ⟨false, none⟩ [] "net down" "aaaa" "bbbb" "ffff"
    rfl (by decide)
  have h3 := bootstrap_degradation_spec.2.2 ⟨some "t", 99⟩ [] 50 50 "boom"
  exact ⟨h1, h2.1, h2.2.1, h3⟩

/-! ## C1 -/

theorem startsWithChars_append (pat : List Char) :
    ∀ (s t : List Char), startsWithChars s pat = true →
      startsWithChars (s ++ t) pat = true := by
  induction pat with
  | nil => intro s t _; cases s ++ t <;> rfl
  | cons b bs ih =>
    intro s t h
    cases s with
    | nil => exact absurd h (by simp [startsWithChars])
    | cons a as =>
      simp only [startsWithChars, Bool.and_eq_true, decide_eq_true_eq] at h
      simp only [List.cons_append, startsWithChars, Bool.and_eq_true, decide_eq_true_eq]
      exact ⟨h.1, ih as t h.2⟩

theorem containsSubChars_append_right (pat : List Char) :
    ∀ (s t : List Char), containsSubChars s pat = true →
      containsSubChars (s ++ t) pat = true := by
  intro s
  induction s with
  | nil =>
    intro t h
    cases pat with
    | nil =>
      cases t with
      | nil => rfl
      | cons c cs => simp [containsSubChars, startsWithChars]
    | cons b bs => exact absurd h (by simp [containsSubChars, startsWithChars])
  | cons a rest ih =>
    intro t h
    simp only [containsSubChars, Bool.or_eq_true] at h
    rcases h with hstart | hsub
    · simp only [List.cons_append, containsSubChars, Bool.or_eq_true]
      exact Or.inl (by simpa using startsWithChars_append pat (a :: rest) t hstart)
    · simp only [List.cons_append, containsSubChars, Bool.or_eq_true]
      exact Or.inr (ih t hsub)

theorem strContainsSub_of_left (p x pat : String)
    (h : strContainsSub p pat = true) : strContainsSub (p ++ x) pat = true := by
  unfold strContainsSub at h ⊢
  rw [String.data_append]
  exact containsSubChars_append_right pat.data p.data x.data h

theorem raise_for_code_neg799 (e : ApiEnvelope) (h : e.code = some (-799)) :
    _raise_for_code e =
      .error (("Bilibili API error " ++ toString (-799 : Int) ++ ": ") ++
        pyOrStr (pyOrOpt e.message e.msg) "unknown error") := by
  unfold _raise_for_code
  rw [h]
  show (if (-799 : Int) = 0 then Except.ok ()
    else Except.error ("Bilibili API error " ++ toString (-799 : Int) ++ ": " ++
      pyOrStr (pyOrOpt e.message e.msg) "unknown error")) = _
  rw [if_neg (by decide)]

theorem error_message_contains_799 (m : String) :
    strContainsSub (("Bilibili API error " ++ toString (-799 : Int) ++ ": ") ++ m)
      "-799" = true :=
  strContainsSub_of_left _ m _ (by decide)

/-- Counterexample for C1: `fetch_dynamic` performs no retry — on a
schedule whose first response carries code `-799` and whose second would
succeed, its envelope check propagates the error immediately with zero
signing-key refreshes, whereas the shared retry loop of
`fetch_videos`/`fetch_articles` retries once and succeeds. -/
theorem fetch_dynamic_no_retry_cex :
    fetchDynamicCheck retrySchedule =
      ⟨.error "Bilibili API error -799: rate limited", 0, 0⟩ ∧
    _raise_for_code (retrySchedule 1) = .ok () ∧
    fetchSignedWithRetry retrySchedule = ⟨.ok (retrySchedule 1), 1, 1⟩ := by
  refine ⟨?_, by decide, ?_⟩ <;> decide

/-- C1 (amended): when the first response of a signed fetch
(`fetch_videos`/`fetch_articles`) carries code `-799`, exactly one retry
is performed — one signing-key force-refresh and one 0.5s sleep — and the
retry's result (success or a second error) is final; `fetch_dynamic`, by
contrast, has no retry loop and propagates the `-799` error at once with
zero refreshes. -/
theorem retry_policy_spec (resp : Nat → ApiEnvelope)
    (h799 : (resp 0).code = some (-799)) :
    (_raise_for_code (resp 1) = .ok () →
      fetchSignedWithRetry resp = ⟨.ok (resp 1), 1, 1⟩) ∧
    (∀ e2, _raise_for_code (resp 1) = .error e2 →
      fetchSignedWithRetry resp = ⟨.error e2, 1, 1⟩) ∧
    (∃ e, fetchDynamicCheck resp = ⟨.error e, 0, 0⟩) := by
  have herr := raise_for_code_neg799 (resp 0) h799
  have hcontains := error_message_contains_799
    (pyOrStr (pyOrOpt (resp 0).message (resp 0).msg) "unknown error")
  refine ⟨?_, ?_, ?_⟩
  · intro hok
    simp [fetchSignedWithRetry, herr, hcontains, hok]
  · intro e2 herr2
    simp [fetchSignedWithRetry, herr, hcontains, herr2]
  · refine ⟨"Bilibili API error " ++ toString (-799 : Int) ++ ": " ++
      pyOrStr (pyOrOpt (resp 0).message (resp 0).msg) "unknown error", ?_⟩
    simp [fetchDynamicCheck, herr]

/-- Witness for C1 (amended) at the two concrete schedules. -/
theorem retry_policy_spec_witness :
    fetchSignedWithRetry retrySchedule = ⟨.ok (retrySchedule 1), 1, 1⟩ ∧
    fetchSignedWithRetry always799Schedule =
      ⟨.error "Bilibili API error -799: rate limited", 1, 1⟩ ∧
    (∃ e, fetchDynamicCheck retrySchedule = ⟨.error e, 0, 0⟩) :=
  ⟨(retry_policy_spec retrySchedule (by decide)).1 (by decide),
   (retry_policy_spec always799Schedule (by decide)).2.1
     "Bilibili API error -799: rate limited" (by decide),
   (retry_policy_spec retrySchedule (by decide)).2.2⟩

/-! ## Order lemmas for the sorting key -/

theorem charListLe_total : ∀ (a b : List Char),
    charListLe a b = true ∨ charListLe b a = true := by
  intro a
  induction a with
  | nil => intro b; exact Or.inl rfl
  | cons x xs ih =>
    intro b
    cases b with
    | nil => exact Or.inr rfl
    | cons y ys =>
      by_cases hxy : x = y
      · subst hxy
        simp only [charListLe, if_pos rfl]
        exact ih ys
      · rcases lt_trichotomy x y with hlt | heq | hgt
        · exact Or.inl (by simp [charListLe, hxy, hlt])
        · exact absurd heq hxy
        · exact Or.inr (by simp [charListLe, Ne.symm hxy, hgt])

theorem charListLe_trans : ∀ (a b c : List Char), charListLe a b = true →
    charListLe b c = true → charListLe a c = true := by
  intro a
  induction a with
  | nil => intro b c _ _; rfl
  | cons x xs ih =>
    intro b c hab hbc
    cases b with
    | nil => exact absurd hab (by simp [charListLe])
    | cons y ys =>
      cases c with
      | nil => exact absurd hbc (by simp [charListLe])
      | cons z zs =>
        simp only [charListLe] at hab hbc ⊢
        by_cases hxy : x = y
        · subst hxy
          rw [if_pos rfl] at hab
          by_cases hyz : x = z
          · subst hyz
            rw [if_pos rfl] at hbc ⊢
            exact ih ys zs hab hbc
          · rw [if_neg hyz] at hbc ⊢
            exact hbc
        · rw [if_neg hxy] at hab
          have hlt : x < y := by simpa using hab
          by_cases hyz : y = z
          · subst hyz
            rw [if_neg hxy]
            simpa using hlt
          · rw [if_neg hyz] at hbc
            have hlt2 : y < z := by simpa using hbc
            have hxz : x < z := lt_trans hlt hlt2
            rw [if_neg (by intro h; subst h; exact absurd hxz (lt_irrefl x))]
            simpa using hxz

theorem charListLe_antisymm : ∀ (a b : List Char), charListLe a b = true →
    charListLe b a = true → a = b := by
  intro a
  induction a with
  | nil =>
    intro b h1 h2
    cases b with
    | nil => rfl
    | cons y ys => exact absurd h2 (by simp [charListLe])
  | cons x xs ih =>
    intro b h1 h2
    cases b with
    | nil => exact absurd h1 (by simp [charListLe])
    | cons y ys =>
      simp only [charListLe] at h1 h2
      by_cases hxy : x = y
      · subst hxy
        rw [if_pos rfl] at h1 h2
        rw [ih ys h1 h2]
      · rw [if_neg hxy] at h1
        rw [if_neg (Ne.symm hxy)] at h2
        have l1 : x < y := by simpa using h1
        have l2 : y < x := by simpa using h2
        exact absurd l2 (not_lt_of_gt l1)

theorem strLe_total (a b : String) : strLe a b = true ∨ strLe b a = true :=
  charListLe_total a.data b.data

theorem strLe_trans (a b c : String) (h1 : strLe a b = true) (h2 : strLe b c = true) :
    strLe a c = true :=
  charListLe_trans a.data b.data c.data h1 h2

theorem strLe_antisymm (a b : String) (h1 : strLe a b = true) (h2 : strLe b a = true) :
    a = b := by
  cases a; cases b
  exact congrArg String.mk (charListLe_antisymm _ _ h1 h2)

theorem pairKeyLe_isTotal :
    IsTotal (String × String) (fun a b => strLe a.1 b.1 = true) :=
  ⟨fun a b => strLe_total a.1 b.1⟩

theorem pairKeyLe_isTrans :
    IsTrans (String × String) (fun a b => strLe a.1 b.1 = true) :=
  ⟨fun _ _ _ h1 h2 => strLe_trans _ _ _ h1 h2⟩

theorem pairKeyStrict_isAntisymm :
    IsAntisymm (String × String) (fun a b => strLe a.1 b.1 = true ∧ a.1 ≠ b.1) :=
  ⟨fun _ _ h1 h2 => absurd (strLe_antisymm _ _ h1.1 h2.1) h1.2⟩

/-! ## PDict membership, key and permutation lemmas -/

theorem any_key_iff (d : PDict) (k : String) :
    d.any (fun p => p.1 = k) = true ↔ k ∈ keysOf d := by
  rw [List.any_eq_true]
  constructor
  · rintro ⟨x, hx, hpx⟩
    exact List.mem_map.mpr ⟨x, hx, by simpa using hpx⟩
  · intro h
    obtain ⟨x, hx, hxk⟩ := List.mem_map.mp h
    exact ⟨x, hx, by simpa using hxk⟩

theorem mem_setKey_of_ne (d : PDict) (k' v' k v : String) (hne : k ≠ k')
    (h : (k, v) ∈ d) : (k, v) ∈ setKey d k' v' := by
  unfold setKey
  split
  · have : (fun p : String × String => if p.1 = k' then (k', v') else p) (k, v) = (k, v) := by
      simp [hne]
    exact this ▸ List.mem_map_of_mem _ h
  · exact List.mem_append_left _ h

theorem mem_setDefault (d : PDict) (k' v' : String) (p : String × String)
    (h : p ∈ d) : p ∈ setDefault d k' v' := by
  unfold setDefault
  split
  · exact h
  · exact List.mem_append_left _ h

theorem mem_keys_setKey (d : PDict) (k v k' : String)
    (h : k' ∈ keysOf (setKey d k v)) : k' ∈ keysOf d ∨ k' = k := by
  unfold setKey at h
  split at h
  · left
    obtain ⟨x, hx, hxk⟩ := List.mem_map.mp h
    obtain ⟨y, hy, hyx⟩ := List.mem_map.mp hx
    refine List.mem_map.mpr ⟨y, hy, ?_⟩
    subst hyx
    subst hxk
    by_cases hyk : y.1 = k
    · simp only [if_pos hyk]
      rename_i hany
      exact hyk.symm ▸ rfl
    · simp [hyk]
  · unfold keysOf at h ⊢
    rw [List.map_append] at h
    rcases List.mem_append.mp h with h1 | h2
    · exact Or.inl h1
    · simp at h2
      exact Or.inr h2

theorem mem_keys_setDefault (d : PDict) (k v k' : String)
    (h : k' ∈ keysOf (setDefault d k v)) : k' ∈ keysOf d ∨ k' = k := by
  unfold setDefault at h
  split at h
  · exact Or.inl h
  · unfold keysOf at h ⊢
    rw [List.map_append] at h
    rcases List.mem_append.mp h with h1 | h2
    · exact Or.inl h1
    · simp at h2
      exact Or.inr h2

theorem nodup_keys_setKey (d : PDict) (k v : String)
    (h : (keysOf d).Nodup) : (keysOf (setKey d k v)).Nodup := by
  unfold setKey
  split
  · have : keysOf (d.map (fun p => if p.1 = k then (k, v) else p)) = keysOf d := by
      unfold keysOf
      rw [List.map_map]
      congr 1
      funext p
      by_cases hp : p.1 = k
      · simp [hp]
      · simp [hp]
    rw [this]
    exact h
  · rename_i hany
    unfold keysOf
    rw [List.map_append]
    rw [List.nodup_append]
    refine ⟨h, by simp, ?_⟩
    intro x hx hx2
    simp at hx2
    rw [hx2] at hx
    exact hany ((any_key_iff d k).mpr hx)

theorem nodup_keys_setDefault (d : PDict) (k v : String)
    (h : (keysOf d).Nodup) : (keysOf (setDefault d k v)).Nodup := by
  unfold setDefault
  split
  · exact h
  · rename_i hany
    unfold keysOf
    rw [List.map_append, List.nodup_append]
    refine ⟨h, by simp, ?_⟩
    intro x hx hx2
    simp at hx2
    rw [hx2] at hx
    exact hany ((any_key_iff d k).mpr hx)

theorem keysOf_filterMap_sublist (params : List (String × Option String)) :
    (keysOf (params.filterMap
      (fun p => p.2.map (fun v => (p.1, stripForbidden v))))).Sublist
      (params.map Prod.fst) := by
  induction params with
  | nil => exact List.Sublist.refl _
  | cons p rest ih =>
    obtain ⟨k, ov⟩ := p
    cases ov with
    | none =>
      simp only [List.filterMap_cons, Option.map_none, List.map_cons]
      exact ih.cons _
    | some v =>
      simp only [List.filterMap_cons, Option.map_some, List.map_cons, keysOf]
      exact List.Sublist.cons₂ _ ih

theorem getVal_cons (p : String × String) (rest : PDict) (k : String) :
    getVal (p :: rest) k = if p.1 = k then some p.2 else getVal rest k := by
  unfold getVal
  by_cases hp : p.1 = k
  · rw [List.find?_cons_of_pos _ (by simpa using hp), if_pos hp]
    rfl
  · rw [List.find?_cons_of_neg _ (by simpa using hp), if_neg hp]

theorem getVal_eq_some_iff : ∀ (d : PDict), (keysOf d).Nodup → ∀ (k v : String),
    (getVal d k = some v ↔ (k, v) ∈ d) := by
  intro d
  induction d with
  | nil => intro _ k v; simp [getVal]
  | cons p rest ih =>
    intro hnd k v
    obtain ⟨p1, p2⟩ := p
    have hnd_rest : (keysOf rest).Nodup := (List.nodup_cons.mp hnd).2
    have hp_not : p1 ∉ keysOf rest := (List.nodup_cons.mp hnd).1
    rw [getVal_cons]
    by_cases hp : p1 = k
    · rw [if_pos hp]
      constructor
      · intro h
        have hv : p2 = v := by simpa using h
        subst hp
        subst hv
        exact List.mem_cons_self _ _
      · intro h
        rcases List.mem_cons.mp h with h1 | h2
        · rw [(Prod.mk.injEq _ _ _ _).mp h1.symm |>.2]
        · exact absurd (hp ▸ List.mem_map.mpr ⟨(k, v), h2, rfl⟩) hp_not
    · rw [if_neg hp]
      rw [ih hnd_rest k v]
      constructor
      · exact fun h => List.mem_cons.mpr (Or.inr h)
      · intro h
        rcases List.mem_cons.mp h with h1 | h2
        · exact absurd ((Prod.mk.injEq _ _ _ _).mp h1.symm).1 hp
        · exact h2

theorem getVal_perm (d₁ d₂ : PDict) (h : d₁.Perm d₂)
    (hnd : (keysOf d₁).Nodup) (k : String) : getVal d₁ k = getVal d₂ k := by
  have hnd₂ : (keysOf d₂).Nodup := (h.map Prod.fst).nodup hnd
  cases hv : getVal d₁ k with
  | some v =>
    exact ((getVal_eq_some_iff d₂ hnd₂ k v).mpr
      (h.mem_iff.mp ((getVal_eq_some_iff d₁ hnd k v).mp hv))).symm
  | none =>
    cases hv2 : getVal d₂ k with
    | none => rfl
    | some v =>
      have := (getVal_eq_some_iff d₁ hnd k v).mpr
        (h.mem_iff.mpr ((getVal_eq_some_iff d₂ hnd₂ k v).mp hv2))
      rw [hv] at this
      cases this

theorem setKey_append (d : PDict) (k v : String)
    (h : ¬ d.any (fun p => p.1 = k) = true) : setKey d k v = d ++ [(k, v)] := by
  unfold setKey
  rw [if_neg h]

theorem any_congr_perm {d₁ d₂ : PDict} (h : d₁.Perm d₂) (f : String × String → Bool) :
    d₁.any f = d₂.any f := by
  by_cases h1 : d₁.any f = true
  · rw [h1]
    obtain ⟨x, hx, hfx⟩ := List.any_eq_true.mp h1
    exact (List.any_eq_true.mpr ⟨x, h.mem_iff.mp hx, hfx⟩).symm
  · rw [Bool.eq_false_iff.mpr h1]
    symm
    rw [Bool.eq_false_iff]
    intro h2
    obtain ⟨x, hx, hfx⟩ := List.any_eq_true.mp h2
    exact h1 (List.any_eq_true.mpr ⟨x, h.mem_iff.mpr hx, hfx⟩)

theorem setDefault_perm (k v : String) {d₁ d₂ : PDict} (h : d₁.Perm d₂) :
    (setDefault d₁ k v).Perm (setDefault d₂ k v) := by
  unfold setDefault
  rw [any_congr_perm h]
  split
  · exact h
  · exact h.append_right _

theorem setKey_perm (k v : String) {d₁ d₂ : PDict} (h : d₁.Perm d₂) :
    (setKey d₁ k v).Perm (setKey d₂ k v) := by
  unfold setKey
  rw [any_congr_perm h]
  split
  · exact h.map _
  · exact h.append_right _

theorem inject_mouse_perm (s1 s2 : String) {d₁ d₂ : PDict} (h : d₁.Perm d₂) :
    (_inject_wbi_mouse s1 s2 d₁).Perm (_inject_wbi_mouse s1 s2 d₂) := by
  unfold _inject_wbi_mouse
  exact setDefault_perm _ _ (setDefault_perm _ _ (setDefault_perm _ _ (setDefault_perm _ _ h)))

theorem nodup_keys_inject_mouse (s1 s2 : String) (d : PDict)
    (h : (keysOf d).Nodup) : (keysOf (_inject_wbi_mouse s1 s2 d)).Nodup := by
  unfold _inject_wbi_mouse
  exact nodup_keys_setDefault _ _ _ (nodup_keys_setDefault _ _ _
    (nodup_keys_setDefault _ _ _ (nodup_keys_setDefault _ _ _ h)))

theorem mem_keys_inject_mouse (s1 s2 : String) (d : PDict) (k : String)
    (h : k ∈ keysOf (_inject_wbi_mouse s1 s2 d)) :
    k ∈ keysOf d ∨ k = "dm_img_list" ∨ k = "dm_img_str" ∨
      k = "dm_cover_img_str" ∨ k = "dm_img_inter" := by
  unfold _inject_wbi_mouse at h
  rcases mem_keys_setDefault _ _ _ _ h with h1 | h1
  · rcases mem_keys_setDefault _ _ _ _ h1 with h2 | h2
    · rcases mem_keys_setDefault _ _ _ _ h2 with h3 | h3
      · rcases mem_keys_setDefault _ _ _ _ h3 with h4 | h4
        · exact Or.inl h4
        · exact Or.inr (Or.inl h4)
      · exact Or.inr (Or.inr (Or.inl h3))
    · exact Or.inr (Or.inr (Or.inr (Or.inl h2)))
  · exact Or.inr (Or.inr (Or.inr (Or.inr h1)))

theorem mem_inject_mouse (s1 s2 : String) (d : PDict) (p : String × String)
    (h : p ∈ d) : p ∈ _inject_wbi_mouse s1 s2 d := by
  unfold _inject_wbi_mouse
  exact mem_setDefault _ _ _ _ (mem_setDefault _ _ _ _
    (mem_setDefault _ _ _ _ (mem_setDefault _ _ _ _ h)))

/-! ## C4 -/

/-- C4: `_sign_wbi_params` strips `! ' ( ) *` from every value, sorts all
keys lexicographically, URL-encodes the sorted mapping, and appends as
`w_rid` the digest of exactly that encoded query concatenated with the
mixin key — `w_rid` itself is not part of the digested query. -/
theorem sign_wbi_struct (md5hex : String → String) (mixin_key : String) (now : Nat)
    (s1 s2 : String) (im : Bool) (params : List (String × Option String))
    (hnodup : (params.map Prod.fst).Nodup)
    (hwrid : "w_rid" ∉ params.map Prod.fst) :
    ∃ q : PDict,
      _sign_wbi_params md5hex mixin_key now s1 s2 im params =
        q ++ [("w_rid", md5hex (urlencode q ++ mixin_key))] ∧
      List.Pairwise (fun a b : String × String => strLe a.1 b.1 = true) q ∧
      (∀ k v, (k, some v) ∈ params → k ≠ "wts" →
        getVal q k = some (stripForbidden v)) := by
  set filtered : PDict :=
    params.filterMap (fun p => p.2.map (fun v => (p.1, stripForbidden v))) with hfil
  set withMouse : PDict :=
    if im then _inject_wbi_mouse s1 s2 filtered else filtered with hwm
  set withLoc : PDict := setDefault withMouse "web_location" "1550101" with hwl
  set withWts : PDict := setKey withLoc "wts" (toString now) with hww
  set ordered : PDict :=
    withWts.insertionSort (fun a b => strLe a.1 b.1 = true) with hord
  have hnd_fil : (keysOf filtered).Nodup :=
    (keysOf_filterMap_sublist params).nodup hnodup
  have hnd_wm : (keysOf withMouse).Nodup := by
    rw [hwm]
    split
    · exact nodup_keys_inject_mouse _ _ _ hnd_fil
    · exact hnd_fil
  have hnd_wl : (keysOf withLoc).Nodup := nodup_keys_setDefault _ _ _ hnd_wm
  have hnd_ww : (keysOf withWts).Nodup := nodup_keys_setKey _ _ _ hnd_wl
  have hperm_ord : ordered.Perm withWts := List.perm_insertionSort _ _
  have hnd_ord : (keysOf ordered).Nodup := by
    have : (keysOf withWts).Perm (keysOf ordered) := (hperm_ord.map Prod.fst).symm
    exact this.nodup hnd_ww
  have hwr_fil : "w_rid" ∉ keysOf filtered := fun hmem =>
    hwrid ((keysOf_filterMap_sublist params).subset hmem)
  have hwr_ww : "w_rid" ∉ keysOf withWts := by
    intro hmem
    rcases mem_keys_setKey _ _ _ _ hmem with h1 | h1
    · rcases mem_keys_setDefault _ _ _ _ h1 with h2 | h2
      · rw [hwm] at h2
        split at h2
        · rcases mem_keys_inject_mouse _ _ _ _ h2 with h3 | h3 | h3 | h3 | h3
          · exact hwr_fil h3
          · exact absurd h3 (by decide)
          · exact absurd h3 (by decide)
          · exact absurd h3 (by decide)
          · exact absurd h3 (by decide)
        · exact hwr_fil h2
      · exact absurd h2 (by decide)
    · exact absurd h1 (by decide)
  have hwr_ord : "w_rid" ∉ keysOf ordered := fun hmem =>
    hwr_ww ((hperm_ord.map Prod.fst).mem_iff.mp hmem)
  have hnotany : ¬ ordered.any (fun p => p.1 = "w_rid") = true := fun h =>
    hwr_ord ((any_key_iff _ _).mp h)
  refine ⟨ordered, ?_, ?_, ?_⟩
  · show setKey ordered "w_rid" (md5hex (urlencode ordered ++ mixin_key)) = _
    exact setKey_append _ _ _ hnotany
  · haveI := pairKeyLe_isTotal
    haveI := pairKeyLe_isTrans
    exact List.sorted_insertionSort _ withWts
  · intro k v hkv hkwts
    have h1 : (k, stripForbidden v) ∈ filtered := by
      rw [hfil]
      exact List.mem_filterMap.mpr ⟨(k, some v), hkv, rfl⟩
    have h2 : (k, stripForbidden v) ∈ withMouse := by
      rw [hwm]
      split
      · exact mem_inject_mouse _ _ _ _ h1
      · exact h1
    have h3 : (k, stripForbidden v) ∈ withLoc := mem_setDefault _ _ _ _ h2
    have h4 : (k, stripForbidden v) ∈ withWts := mem_setKey_of_ne _ _ _ _ _ hkwts h3
    have h5 : (k, stripForbidden v) ∈ ordered := hperm_ord.mem_iff.mpr h4
    exact (getVal_eq_some_iff ordered hnd_ord k _).mpr h5

/-- Witness for C4: the structural theorem applied to a concrete parameter
map containing the forbidden characters. -/
theorem sign_wbi_struct_witness :
    ∃ q : PDict,
      _sign_wbi_params (fun s => s) "mixin" 1700000000 "AB" "CD" true
          [("key", some "a!'b()c*d")] =
        q ++ [("w_rid", (fun s : String => s) (urlencode q ++ "mixin"))] ∧
      List.Pairwise (fun a b : String × String => strLe a.1 b.1 = true) q ∧
      (∀ k v, (k, some v) ∈ [("key", some "a!'b()c*d")] → k ≠ "wts" →
        getVal q k = some (stripForbidden v)) :=
  sign_wbi_struct (fun s => s) "mixin" 1700000000 "AB" "CD" true
    [("key", some "a!'b()c*d")] (by decide) (by decide)

/-! ## C2 -/

/-- Counterexample for C2: with mouse-signal injection enabled, the output
depends on the values drawn from the random generator for
`dm_img_str`/`dm_cover_img_str` — two evaluations with different draws
(as Python's `random.sample` produces across calls) differ even for a
fixed mixin key, timestamp and input map. -/
theorem sign_wbi_mouse_rng_cex :
    _sign_wbi_params (fun s => s) "k" 0 "AB" "CD" true [] ≠
      _sign_wbi_params (fun s => s) "k" 0 "EF" "GH" true [] := by decide

/-- C2 (amended): for a fixed mixin key, fixed timestamp and fixed random
draws, `_sign_wbi_params` is insensitive to the input map's iteration
order (maps equal as key-value sets sign identically), and with
mouse-signal injection disabled the random draws do not influence the
output at all; with injection enabled the output additionally depends on
the two `random.sample` draws. -/
theorem sign_wbi_determinism_amended (md5hex : String → String) (mixin_key : String)
    (now : Nat) (s1 s2 s1' s2' : String) (im : Bool)
    (p q : List (String × Option String)) (hperm : p.Perm q)
    (hnodup : (p.map Prod.fst).Nodup) :
    _sign_wbi_params md5hex mixin_key now s1 s2 im p =
      _sign_wbi_params md5hex mixin_key now s1 s2 im q ∧
    _sign_wbi_params md5hex mixin_key now s1 s2 false p =
      _sign_wbi_params md5hex mixin_key now s1' s2' false p := by
  constructor
  · have hnodup_q : (q.map Prod.fst).Nodup := (hperm.map Prod.fst).nodup hnodup
    set filP : PDict :=
      p.filterMap (fun r => r.2.map (fun v => (r.1, stripForbidden v))) with hfp
    set filQ : PDict :=
      q.filterMap (fun r => r.2.map (fun v => (r.1, stripForbidden v))) with hfq
    set wmP : PDict := if im then _inject_wbi_mouse s1 s2 filP else filP with hwmp
    set wmQ : PDict := if im then _inject_wbi_mouse s1 s2 filQ else filQ with hwmq
    set wlP : PDict := setDefault wmP "web_location" "1550101" with hwlp
    set wlQ : PDict := setDefault wmQ "web_location" "1550101" with hwlq
    set wwP : PDict := setKey wlP "wts" (toString now) with hwwp
    set wwQ : PDict := setKey wlQ "wts" (toString now) with hwwq
    set ordP : PDict := wwP.insertionSort (fun a b => strLe a.1 b.1 = true) with hop
    set ordQ : PDict := wwQ.insertionSort (fun a b => strLe a.1 b.1 = true) with hoq
    have hpfil : filP.Perm filQ := hperm.filterMap _
    have hpwm : wmP.Perm wmQ := by
      rw [hwmp, hwmq]
      split
      · exact inject_mouse_perm _ _ hpfil
      · exact hpfil
    have hpwl : wlP.Perm wlQ := setDefault_perm _ _ hpwm
    have hpww : wwP.Perm wwQ := setKey_perm _ _ hpwl
    have hndP : (keysOf wwP).Nodup := by
      refine nodup_keys_setKey _ _ _ (nodup_keys_setDefault _ _ _ ?_)
      rw [hwmp]
      split
      · exact nodup_keys_inject_mouse _ _ _ ((keysOf_filterMap_sublist p).nodup hnodup)
      · exact (keysOf_filterMap_sublist p).nodup hnodup
    have hndQ : (keysOf wwQ).Nodup := (hpww.map Prod.fst).nodup hndP
    have hpordP : ordP.Perm wwP := List.perm_insertionSort _ _
    have hpordQ : ordQ.Perm wwQ := List.perm_insertionSort _ _
    have hndOP : (keysOf ordP).Nodup := ((hpordP.map Prod.fst).symm).nodup hndP
    have hndOQ : (keysOf ordQ).Nodup := ((hpordQ.map Prod.fst).symm).nodup hndQ
    haveI := pairKeyLe_isTotal
    haveI := pairKeyLe_isTrans
    haveI := pairKeyStrict_isAntisymm
    have hsortP : List.Pairwise (fun a b : String × String => strLe a.1 b.1 = true) ordP :=
      List.sorted_insertionSort _ wwP
    have hsortQ : List.Pairwise (fun a b : String × String => strLe a.1 b.1 = true) ordQ :=
      List.sorted_insertionSort _ wwQ
    have hneP : List.Pairwise (fun a b : String × String => a.1 ≠ b.1) ordP :=
      List.pairwise_map.mp hndOP
    have hneQ : List.Pairwise (fun a b : String × String => a.1 ≠ b.1) ordQ :=
      List.pairwise_map.mp hndOQ
    have heq : ordP = ordQ := by
      refine List.eq_of_perm_of_sorted
        (r := fun a b : String × String => strLe a.1 b.1 = true ∧ a.1 ≠ b.1)
        (hpordP.trans (hpww.trans hpordQ.symm)) ?_ ?_
      · exact hsortP.and hneP
      · exact hsortQ.and hneQ
    have h1 : _sign_wbi_params md5hex mixin_key now s1 s2 im p =
        setKey ordP "w_rid" (md5hex (urlencode ordP ++ mixin_key)) := rfl
    have h2 : _sign_wbi_params md5hex mixin_key now s1 s2 im q =
        setKey ordQ "w_rid" (md5hex (urlencode ordQ ++ mixin_key)) := rfl
    rw [h1, h2, heq]
  · rfl

/-- Witness for C2 (amended) at two concrete permuted maps. -/
theorem sign_wbi_determinism_amended_witness :
    _sign_wbi_params (fun s => s) "k" 7 "AB" "CD" true
        [("a", some "1"), ("b", some "2")] =
      _sign_wbi_params (fun s => s) "k" 7 "AB" "CD" true
        [("b", some "2"), ("a", some "1")] ∧
    _sign_wbi_params (fun s => s) "k" 7 "AB" "CD" false
        [("a", some "1"), ("b", some "2")] =
      _sign_wbi_params (fun s => s) "k" 7 "EF" "GH" false
        [("a", some "1"), ("b", some "2")] :=
  sign_wbi_determinism_amended (fun s => s) "k" 7 "AB" "CD" "EF" "GH" true
    [("a", some "1"), ("b", some "2")] [("b", some "2"), ("a", some "1")]
    (by decide) (by decide)

end Bilibili
